import Mathlib

set_option maxRecDepth 4000

/-!
Verification development for the BiteBoard product-creation backend
(`backend/scripts/product_creator/Product_Creator.py` and
`backend/scripts/product_creator/categories.py`).

The Python code is shallowly embedded: pure fragments become Lean functions,
dictionaries become insertion-ordered association lists, HTTP calls become
request values paired with response oracles, and the remote store becomes an
explicit state that a request transforms.  Python values that flow through the
duck-typed payload dictionaries are modelled by `PyVal` (None, bool, int, str);
the in-repository callers of the modelled functions only pass these shapes.
-/

/-! ## Python primitives -/

/-- Python value model for the loosely typed payload fields. -/
inductive PyVal where
  | none
  | bool (b : Bool)
  | int (n : Int)
  | str (s : String)
  deriving DecidableEq, Repr

/-- Python truthiness (`bool(x)`) for the modelled values. -/
def PyVal.truthy : PyVal → Bool
  | .none => false
  | .bool b => b
  | .int n => n != 0
  | .str s => s ≠ ""

/-- Characters Python treats as whitespace in `str.strip()` / `str.split()`:
the ASCII whitespace characters and the non-breaking space (the only non-ASCII
whitespace appearing in this code base, cf. `categories.py`). -/
def pyIsSpace (c : Char) : Bool :=
  c = ' ' || c = '\t' || c = '\n' || c = '\r' ||
  c = Char.ofNat 11 || c = Char.ofNat 12 || c = Char.ofNat 0xa0

/-- `str.strip()` on the character list. -/
def pyStripList (l : List Char) : List Char :=
  ((l.dropWhile pyIsSpace).reverse.dropWhile pyIsSpace).reverse

/-- Python `str.strip()`. -/
def pyStrip (s : String) : String := String.mk (pyStripList s.data)

/-- `str.split()` with no separator: split on whitespace runs, drop empties. -/
def pySplitWSAux : List Char → List Char → List (List Char)
  | [], acc => if acc.isEmpty then [] else [acc.reverse]
  | c :: t, acc =>
    if pyIsSpace c then
      if acc.isEmpty then pySplitWSAux t [] else acc.reverse :: pySplitWSAux t []
    else pySplitWSAux t (c :: acc)

/-- `" ".join(...)` on already-split words. -/
def joinWithSpace : List (List Char) → List Char
  | [] => []
  | [x] => x
  | x :: y :: t => x ++ ' ' :: joinWithSpace (y :: t)

/-- `" ".join(s.replace(nbsp, " ").split())` as used in `categories.py`
(the non-breaking-space replace is a single-character substitution, and the
split treats the replacement identically). -/
def normWS (s : String) : String :=
  let replaced := s.data.map (fun c => if c = Char.ofNat 0xa0 then ' ' else c)
  String.mk (joinWithSpace (pySplitWSAux replaced []))

/-- Python `str.lower()` (the strings involved are ASCII). -/
def pyLower (s : String) : String := String.mk (s.data.map Char.toLower)

/-- `needle in haystack` prefix test on char lists. -/
def chPrefix : List Char → List Char → Bool
  | [], _ => true
  | _ :: _, [] => false
  | a :: as, b :: bs => a = b && chPrefix as bs

/-- Python substring containment (`needle in haystack`). -/
def chContains (hay needle : List Char) : Bool :=
  match hay with
  | [] => needle.isEmpty
  | _ :: t => chPrefix needle hay || chContains t needle

/-- Python `s.startswith(pre)`. -/
def strStartsWith (s pre : String) : Bool := chPrefix pre.data s.data

/-- Left-to-right non-overlapping substring replacement on characters,
fuel-bounded by the input length (Python `str.replace` with a nonempty
pattern). -/
def replaceSubFuel (pat rep : List Char) : Nat → List Char → List Char
  | 0, l => l
  | _ + 1, [] => []
  | fuel + 1, c :: t =>
    if chPrefix pat (c :: t) ∧ pat ≠ [] then
      rep ++ replaceSubFuel pat rep fuel ((c :: t).drop pat.length)
    else c :: replaceSubFuel pat rep fuel t

/-- Python `s.replace(pat, rep)` for a nonempty pattern. -/
def strReplace (s pat rep : String) : String :=
  String.mk (replaceSubFuel pat.data rep.data s.data.length s.data)

/-- Python `s.split(sep)[-1]` for a single-character separator. -/
def lastSplitSeg (sep : Char) (s : String) : String :=
  String.mk ((s.data.reverse.takeWhile (· ≠ sep)).reverse)

/-- Insertion-ordered dictionary insert: overwrite in place, else append
(Python `d[k] = v`). -/
def adInsert {α β : Type} [DecidableEq α] (d : List (α × β)) (k : α) (v : β) :
    List (α × β) :=
  if d.any (fun p => p.1 = k) then
    d.map (fun p => if p.1 = k then (k, v) else p)
  else d ++ [(k, v)]

/-- Dictionary lookup (`d.get(k)`). -/
def adLookup {α β : Type} [DecidableEq α] (d : List (α × β)) (k : α) : Option β :=
  (d.find? (fun p => p.1 = k)).map (fun p => p.2)

/-- First index satisfying a predicate (Python `list.index` composed with the
membership tests used by the source). -/
def listFindIdx (p : String → Bool) : List String → Option Nat
  | [] => Option.none
  | a :: t => if p a then some 0 else (listFindIdx p t).map (· + 1)

/-- Python `x in list` for strings. -/
def listContainsStr (l : List String) (a : String) : Bool := l.any (· = a)

/-- Stable insertion used to model Python `list.sort` (equal keys keep their
original relative order because a later element is inserted after them). -/
def insertStable {α : Type} (le : α → α → Bool) (a : α) : List α → List α
  | [] => [a]
  | b :: t => if le b a then b :: insertStable le a t else a :: b :: t

/-- Stable sort by a boolean `le`, modelling Python list sorting. -/
def stableSort {α : Type} (le : α → α → Bool) (l : List α) : List α :=
  l.foldl (fun acc a => insertStable le a acc) []

/-- Lexicographic strict order on char lists (Python string `<`). -/
def chLt : List Char → List Char → Bool
  | [], [] => false
  | [], _ :: _ => true
  | _ :: _, [] => false
  | a :: as, b :: bs => if a = b then chLt as bs else decide (a.val < b.val)

/-- Python string `<=`. -/
def strLe (a b : String) : Bool := a = b || chLt a.data b.data

/-- Value of a digit run. -/
def digitsVal (l : List Char) : Nat :=
  l.foldl (fun acc c => acc * 10 + (c.toNat - '0'.toNat)) 0

/-- Parse a nonempty all-digit string (used for Python `int(...)` on the
numeric suffixes appearing here; other suffixes raise and yield the
empty-choices fallback, which the callers also produce for them). -/
def parseNatDigits (s : String) : Option Nat :=
  if s ≠ "" && s.data.all (·.isDigit) then some (digitsVal s.data) else Option.none

/-! ## JSON rendering (`json.dumps` on lists of strings, `ensure_ascii` default) -/

/-- Lowercase hex digit. -/
def hexDigit (n : Nat) : Char :=
  if n < 10 then Char.ofNat ('0'.toNat + n) else Char.ofNat ('a'.toNat + (n - 10))

/-- Four lowercase hex digits. -/
def hex4 (n : Nat) : List Char :=
  [hexDigit (n / 4096 % 16), hexDigit (n / 256 % 16), hexDigit (n / 16 % 16),
   hexDigit (n % 16)]

/-- `\uXXXX` escape, using a surrogate pair beyond the BMP, as Python does. -/
def uEscape (n : Nat) : List Char :=
  if n < 0x10000 then '\\' :: 'u' :: hex4 n
  else
    let v := n - 0x10000
    ('\\' :: 'u' :: hex4 (0xd800 + v / 0x400)) ++ ('\\' :: 'u' :: hex4 (0xdc00 + v % 0x400))

/-- Python `json.dumps` escaping of one character (escapes `"`, `\`, control
characters and, with the default `ensure_ascii=True`, everything outside
the printable ASCII range). -/
def jsonEscapeChar (c : Char) : List Char :=
  if c = '"' then ['\\', '"']
  else if c = '\\' then ['\\', '\\']
  else if c = '\n' then ['\\', 'n']
  else if c = '\r' then ['\\', 'r']
  else if c = '\t' then ['\\', 't']
  else if c = Char.ofNat 8 then ['\\', 'b']
  else if c = Char.ofNat 12 then ['\\', 'f']
  else if c.val < 32 || c.val > 126 then uEscape c.toNat
  else [c]

/-- JSON string literal as characters. -/
def jsonLitChars (s : String) : List Char :=
  '"' :: (s.data.foldr (fun c acc => jsonEscapeChar c ++ acc) ['"'])

/-- `", ".join`, the default `json.dumps` item separator. -/
def joinCommaSep : List (List Char) → List Char
  | [] => []
  | [x] => x
  | x :: y :: t => x ++ ',' :: ' ' :: joinCommaSep (y :: t)

/-- `json.dumps(xs)` for a list of strings. -/
def jsonDumpsList (xs : List String) : String :=
  String.mk ('[' :: joinCommaSep (xs.map jsonLitChars) ++ [']'])

/-! ## JSON parsing (`json.loads` restricted to arrays of strings)

The source only ever loads values that are JSON arrays of strings (subcategory
metafield values and the choice lists inside Shopify 422 error messages); any
other payload makes the Python code either raise (caught, recorded as an
error) or skip the branch guarded by `isinstance(parsed, list)` — in both
cases the observable behaviour equals the `Option.none` result here. -/

/-- JSON structural whitespace. -/
def jsonWs (c : Char) : Bool := c = ' ' || c = '\t' || c = '\n' || c = '\r'

/-- Short escapes inside JSON string literals. -/
def jsonUnescape (c : Char) : Option Char :=
  if c = '"' then some '"'
  else if c = '\\' then some '\\'
  else if c = '/' then some '/'
  else if c = 'b' then some (Char.ofNat 8)
  else if c = 'f' then some (Char.ofNat 12)
  else if c = 'n' then some '\n'
  else if c = 'r' then some '\r'
  else if c = 't' then some '\t'
  else Option.none

/-- Hex digit value. -/
def hexVal (c : Char) : Option Nat :=
  if '0' ≤ c ∧ c ≤ '9' then some (c.toNat - '0'.toNat)
  else if 'a' ≤ c ∧ c ≤ 'f' then some (c.toNat - 'a'.toNat + 10)
  else if 'A' ≤ c ∧ c ≤ 'F' then some (c.toNat - 'A'.toNat + 10)
  else Option.none

/-- Parse the body of a JSON string literal (after the opening quote),
fuel-bounded by the input length.  Lone surrogate escapes (which Python would
keep as surrogate code units) are outside `Char` and replaced; they never
occur in the modelled data. -/
def parseJsonStringBody : Nat → List Char → Option (List Char × List Char)
  | 0, _ => Option.none
  | _ + 1, [] => Option.none
  | fuel + 1, c :: rest =>
    if c = '"' then some ([], rest)
    else if c = '\\' then
      match rest with
      | [] => Option.none
      | e :: rest2 =>
        if e = 'u' then
          match rest2 with
          | a :: b :: c2 :: d :: rest3 =>
            match hexVal a, hexVal b, hexVal c2, hexVal d with
            | some x, some y, some z, some w =>
              let n := ((x * 16 + y) * 16 + z) * 16 + w
              (parseJsonStringBody fuel rest3).map
                (fun r => (Char.ofNat n :: r.1, r.2))
            | _, _, _, _ => Option.none
          | _ => Option.none
        else
          match jsonUnescape e with
          | some ch =>
            (parseJsonStringBody fuel rest2).map (fun r => (ch :: r.1, r.2))
          | Option.none => Option.none
    else if c.val < 32 then Option.none
    else (parseJsonStringBody fuel rest).map (fun r => (c :: r.1, r.2))

/-- Parse the items of a JSON array of strings, positioned after `[` or `,`. -/
def parseArrayItems : Nat → List Char → Option (List String × List Char)
  | 0, _ => Option.none
  | fuel + 1, l =>
    match l.dropWhile jsonWs with
    | '"' :: rest =>
      match parseJsonStringBody (rest.length + 1) rest with
      | some (sChars, rest2) =>
        (match rest2.dropWhile jsonWs with
         | ',' :: rest4 =>
           (parseArrayItems fuel rest4).map
             (fun r => (String.mk sChars :: r.1, r.2))
         | ']' :: rest4 => some ([String.mk sChars], rest4)
         | _ => Option.none)
      | Option.none => Option.none
    | _ => Option.none

/-- `json.loads` for a (whole-input) JSON array of strings. -/
def parseStringArray (s : String) : Option (List String) :=
  match s.data.dropWhile jsonWs with
  | '[' :: rest =>
    (match rest.dropWhile jsonWs with
     | ']' :: rest2 =>
       if (rest2.dropWhile jsonWs).isEmpty then some [] else Option.none
     | _ =>
       match parseArrayItems (rest.length + 1) rest with
       | some (xs, r) =>
         if (r.dropWhile jsonWs).isEmpty then some xs else Option.none
       | Option.none => Option.none)
  | _ => Option.none

/-! ## `format_price` (Product_Creator.py lines 25-32)

`Decimal(str(price))` is modelled by an exact decimal parser; `quantize`
to two places with `ROUND_HALF_UP` rounds the magnitude half-up (the sign is
kept aside, matching ties-away-from-zero).  `Decimal` raises
`decimal.InvalidOperation` — a subclass of `ArithmeticError`, not of
`ValueError`/`TypeError` — on an unparsable string, and `quantize` raises it
on infinities and on results longer than the 28-digit context precision; the
`except (ValueError, TypeError)` clause in the source catches none of these.
NaN payload forms (`nan123`, `snan`) are not modelled; no claim touches them. -/

/-- An exact decimal: value is `coeff * 10 ^ exp`, negated when `sign`. -/
structure PyDecimal where
  sign : Bool
  coeff : Nat
  exp : Int
  deriving DecidableEq, Repr

/-- Result of the `Decimal` string constructor. -/
inductive DecParse where
  | num (d : PyDecimal)
  | inf (sign : Bool)
  | nan
  | fail
  deriving DecidableEq, Repr

/-- Outcome of a Python call: a returned value or an uncaught exception. -/
inductive PyOutcome where
  | ok (s : String)
  | exn (e : String)
  deriving DecidableEq, Repr

/-- Span of leading digits. -/
def spanDigits (l : List Char) : List Char × List Char :=
  (l.takeWhile (·.isDigit), l.dropWhile (·.isDigit))

/-- `digits [ "." digits? ] | "." digits`, at least one digit overall. -/
def parseUnsigned (l : List Char) : Option (Nat × Int × List Char) :=
  let p := spanDigits l
  match p.2 with
  | '.' :: r2 =>
    let q := spanDigits r2
    if p.1.isEmpty && q.1.isEmpty then Option.none
    else some (digitsVal (p.1 ++ q.1), -(q.1.length : Int), q.2)
  | _ => if p.1.isEmpty then Option.none else some (digitsVal p.1, 0, p.2)

/-- Optional exponent part `[eE][+-]?digits`. -/
def parseExpPart (l : List Char) : Option (Int × List Char) :=
  match l with
  | c :: r =>
    if c = 'e' || c = 'E' then
      let sr : Bool × List Char :=
        match r with
        | '+' :: t => (false, t)
        | '-' :: t => (true, t)
        | _ => (false, r)
      let q := spanDigits sr.2
      if q.1.isEmpty then Option.none
      else some ((if sr.1 then -(digitsVal q.1 : Int) else (digitsVal q.1 : Int)), q.2)
    else Option.none
  | [] => Option.none

/-- `Decimal(value)` for a string: strip whitespace, drop underscores, then
the numeric-string grammar. -/
def parsePyDecimal (s : String) : DecParse :=
  let cleaned := (pyStripList s.data).filter (fun c => c ≠ '_')
  let sb : Bool × List Char :=
    match cleaned with
    | '+' :: t => (false, t)
    | '-' :: t => (true, t)
    | t => (false, t)
  let low := sb.2.map Char.toLower
  if low = "inf".data || low = "infinity".data then DecParse.inf sb.1
  else if low = "nan".data then DecParse.nan
  else
    match parseUnsigned sb.2 with
    | Option.none => DecParse.fail
    | some (coeff, exp, rest) =>
      match rest with
      | [] => DecParse.num ⟨sb.1, coeff, exp⟩
      | _ =>
        match parseExpPart rest with
        | some (e, []) => DecParse.num ⟨sb.1, coeff, exp + e⟩
        | _ => DecParse.fail

/-- Magnitude in hundredths after `quantize(Decimal("0.01"), ROUND_HALF_UP)`. -/
def quantize2HalfUp (d : PyDecimal) : Nat :=
  if -2 ≤ d.exp then d.coeff * 10 ^ (d.exp + 2).toNat
  else
    let k := 10 ^ ((-2) - d.exp).toNat
    d.coeff / k + (if k ≤ 2 * (d.coeff % k) then 1 else 0)

/-- `str` of a two-fractional-digit Decimal with the given sign. -/
def renderCents (sign : Bool) (m : Nat) : String :=
  (if sign then "-" else "") ++ toString (m / 100) ++ "." ++
    (if m % 100 < 10 then "0" else "") ++ toString (m % 100)

/-- `format_price` (source lines 25-32).  The `except (ValueError, TypeError)`
arm never fires for an unparsable string — `Decimal` raises
`decimal.InvalidOperation` instead, which propagates out of the function. -/
def format_price (price : String) : PyOutcome :=
  match parsePyDecimal price with
  | DecParse.fail => PyOutcome.exn "decimal.InvalidOperation"
  | DecParse.inf _ => PyOutcome.exn "decimal.InvalidOperation"
  | DecParse.nan => PyOutcome.ok "NaN"
  | DecParse.num d =>
    let m := quantize2HalfUp d
    if 10 ^ 28 ≤ m then PyOutcome.exn "decimal.InvalidOperation"
    else PyOutcome.ok (renderCents d.sign m)

/-! ## `categories.py`: the fixed vocabulary and the bucket rule -/

/-- `CATEGORIES` (categories.py lines 12-44). -/
def CATEGORIES : List String :=
  ["All", "Latest", "Best Sellers", "Express", "Super Express", "Seasonal",
   "Themes", "Events & Charities", "Brands", "Eco", "Biscuits, Cakes & Pies",
   "Cereals & Cereal Bars", "Chewing Gum", "Chocolate", "Crisps",
   "Dried Fruits", "Drinks", "Flapjacks", "Honey",
   "Jams, Marmalades & Spreads", "Lollipops", "Popcorn", "Pretzels",
   "Protein", "Savoury Snacks", "Soup", "Sprinkles", "Sweets", "Mints",
   "Vegan", "Packaging"]

/-- `SUBCATEGORIES` (categories.py lines 48-196), in source order. -/
def SUBCATEGORIES : List String :=
  ["Black Friday", "Christmas", "Easter", "Eid", "Halloween", "New Year",
   "Ramadan", "Summer", "Valentines Day",
   "Achievement", "Anniversary", "Appreciation", "Awards", "Back To School",
   "British", "Carnival", "Celebrations", "Community", "Countdown to Launch",
   "Customers", "Diversity & Inclusion", "Empowerment", "Football", "Heroes",
   "Ideas", "Loyalty", "Meet The Team", "Mental Health", "Milestones",
   "Product Launch", "Referral Rewards", "Sale", "Saver Offers", "Staff",
   "Success", "Support", "Sustainability", "Thank You", "University",
   "Volunteer", "Wellbeing", "We Miss You",
   "Cancer Research", "Careers Week", "Mental Health Awareness", "Movember",
   "Pride", "Volunteers Week", "Wimbledon", "World Bee Day",
   "World Blood Donor Day", "World Cup - Football", "World Cup - Rugby",
   "Cadbury", "Haribo", "Heinz", "Jordans", "Kelloggs", "Mars", "McVities",
   "Nature Valley", "Nestle", "Swizzels", "Walkers",
   "Biscuits - Box", "Biscuits - Single", "Cake - Box", "Cake Bars - Single",
   "Cakes - Round", "Cakes - Traybake", "Cupcakes - Box", "Cupcakes - Single",
   "Pies - Box", "Pies - Single",
   "Breakfast Cereals", "Cereal Bars", "Porridge",
   "Mint",
   "Balls", "Bars", "Coins", "Hearts", "Neapolitans", "Single Shapes",
   "Truffles",
   "Apricots", "Bananas", "Dates",
   "Coffee", "Fizzy", "Hot Chocolate", "Still", "Tea", "Water",
   "Marmalade", "Marmite", "Nutella", "Jams",
   "Chocolate", "Sugar",
   "Microwave", "Popped",
   "Nuts",
   "Bags", "Packs",
   "Shapes", "Vermicelli",
   "Boiled/Compressed", "Jellies",
   "Sweets", "Treats",
   "Bottle", "Card", "Card Box - A Box", "Card Box - Rectangle",
   "Card Box - Shape", "Card Box - Square", "Eco", "Header Card", "Jar",
   "Label", "Nets", "Organza Bag", "Popcorn Box", "Plastic Box", "Tin",
   "Tub", "Wrap"]

/-- `SUBCATEGORY_2_FIRST_ITEM` (categories.py line 199). -/
def SUBCATEGORY_2_FIRST_ITEM : String := "Sweets"

/-- `_subcategory_2_start_index` (categories.py lines 394-399):
`SUBCATEGORIES.index(sentinel)`, or the list length when absent. -/
def subcategory_2_start_index : Nat :=
  (listFindIdx (· = SUBCATEGORY_2_FIRST_ITEM) SUBCATEGORIES).getD SUBCATEGORIES.length

/-- `get_metafield_choices` in categories.py (lines 402-432).  The generic
`subcategory_N` arm computes `int(key.split("_")[-1])` and slices 128-wide
windows; suffixes that are not plain digit runs (including signed ones, whose
negative slices are empty for this 128-item list) yield `[]` exactly as the
`except` arm does. -/
def get_metafield_choices (metafield_key : String) : List String :=
  if metafield_key = "custom_category" then CATEGORIES
  else if metafield_key = "subcategory" then
    SUBCATEGORIES.take subcategory_2_start_index
  else if metafield_key = "subcategory_2" then
    SUBCATEGORIES.drop subcategory_2_start_index
  else if strStartsWith metafield_key "subcategory_" then
    match parseNatDigits (lastSplitSeg '_' metafield_key) with
    | some n => if n = 0 then [] else (SUBCATEGORIES.drop ((n - 1) * 128)).take 128
    | Option.none => []
  else []

/-- `get_subcategory_metafield_key` (categories.py lines 434-464). -/
def get_subcategory_metafield_key (subcategory : String) : String :=
  let s := pyStrip subcategory
  if s = "" then "subcategory"
  else
    let s_norm := normWS s
    let s_lower := pyLower s_norm
    let idx : Option Nat :=
      if listContainsStr SUBCATEGORIES s then listFindIdx (· = s) SUBCATEGORIES
      else if listContainsStr SUBCATEGORIES s_norm then
        listFindIdx (· = s_norm) SUBCATEGORIES
      else
        listFindIdx
          (fun choice =>
            let c_norm := normWS choice
            c_norm = s_norm || pyLower c_norm = s_lower)
          SUBCATEGORIES
    match idx with
    | Option.none => "subcategory"
    | some index =>
      if index < subcategory_2_start_index then "subcategory" else "subcategory_2"

/-! ### The bucket rule as the specification states it (refinement target) -/

/-- Spec bucket names. -/
inductive Bucket where
  | primary
  | secondary
  deriving DecidableEq, Repr

/-- Stated from the spec (section 4.2): resolve the label by exact match,
else by whitespace-normalized match, else by case-insensitive normalized
match. -/
def specResolveIndex (label : String) : Option Nat :=
  let s := pyStrip label
  let n := normWS s
  match listFindIdx (· = s) SUBCATEGORIES with
  | some i => some i
  | Option.none =>
    match listFindIdx (· = n) SUBCATEGORIES with
    | some i => some i
    | Option.none =>
      listFindIdx (fun c => normWS c = n || pyLower (normWS c) = pyLower n)
        SUBCATEGORIES

/-- Index of the sentinel "Sweets" per the spec. -/
def specSweetsIndex : Nat :=
  (listFindIdx (· = "Sweets") SUBCATEGORIES).getD SUBCATEGORIES.length

/-- Stated from the spec: index before the sentinel means primary, the
sentinel and everything after means secondary, unknown label means primary. -/
def specBucketFor (label : String) : Bucket :=
  match specResolveIndex label with
  | Option.none => Bucket.primary
  | some i => if i < specSweetsIndex then Bucket.primary else Bucket.secondary

/-- The storage key a spec bucket denotes. -/
def Bucket.metafieldKey : Bucket → String
  | .primary => "subcategory"
  | .secondary => "subcategory_2"

/-! ## `create_metafields` (Product_Creator.py lines 780-976)

The per-metafield pipeline is: value normalization (lines 818-848), the
subcategory choice filter (849-867), upsert routing by `(namespace, key)`
(869-903), and the 422 choice-conflict retry (909-949).  HTTP is modelled by
a transport function from requests to responses threaded through a state. -/

/-- One entry of `metafields_data`, after the `dict.get` defaults the source
applies (`namespace` defaults to `"custom"`, `key` to `""`, `value` to `""`,
`type` to `"single_line_text_field"`). -/
structure MFData where
  ns : String
  key : String
  value : PyVal
  mfType : String
  deriving DecidableEq, Repr

/-- `v.startswith("[") and v.endswith("]")`, the simple is-JSON-array
heuristic of line 828 (single-character prefix/suffix tests). -/
def bracketShaped (v : String) : Bool :=
  v.data.head? = some '[' && v.data.getLast? = some ']'

/-- Lines 822-832: for a non-blank string under a `list.` type, strip it and
wrap it as a one-element JSON array unless it already looks like one. -/
def wrapListValue (mfType : String) (raw : PyVal) : PyVal :=
  match raw with
  | PyVal.str s =>
    if pyStrip s ≠ "" && strStartsWith mfType "list." then
      let v := pyStrip s
      if bracketShaped v then PyVal.str v else PyVal.str (jsonDumpsList [v])
    else PyVal.str s
  | other => other

/-- Lines 834-848: replace blank values (`""`/whitespace, and `None` via the
`formatted_value is None` test) with `"-"` for scalar types, and with
`json.dumps(["-"])` for list types whose string value is blank or `"[]"`.
Non-string values other than `None` fall through both `isinstance` guards
unchanged (in Python `0 == ""` and `True == ""` are `False`). -/
def blankFix (mfType : String) (v : PyVal) : PyVal :=
  if ¬ strStartsWith mfType "list." then
    match v with
    | PyVal.str s => if pyStrip s = "" then PyVal.str "-" else PyVal.str s
    | PyVal.none => PyVal.str "-"
    | other => other
  else
    match v with
    | PyVal.str s =>
      let st := pyStrip s
      if st = "" || st = "[]" then PyVal.str (jsonDumpsList ["-"]) else PyVal.str s
    | other => other

/-- The whole value normalization of lines 818-848 (before the choice
filter). -/
def normalizeMetafieldValue (mfType : String) (raw : PyVal) : PyVal :=
  blankFix mfType (wrapListValue mfType raw)

/-- Line 853: `namespace == "custom" and key and (key == "subcategory" or
key.startswith("subcategory_"))`. -/
def subcatFamilyKey (ns key : String) : Bool :=
  ns = "custom" && key ≠ "" && (key = "subcategory" || strStartsWith key "subcategory_")

/-- Lines 854-867: filter a subcategory-family list value down to the allowed
choices from `categories.get_metafield_choices`; `Option.none` models the
`continue` that skips the attribute when nothing survives.  When the allowed
list is empty (`if allowed:` false) or the value does not parse as a JSON
array, the value passes through unfiltered. -/
def applyChoiceFilter (key : String) (v : PyVal) : Option PyVal :=
  let allowed := get_metafield_choices key
  if allowed.isEmpty then some v
  else
    match v with
    | PyVal.str s =>
      match parseStringArray s with
      | some parsed =>
        let filtered := parsed.filter (fun x => listContainsStr allowed (pyStrip x))
        if filtered.isEmpty then Option.none
        else some (PyVal.str (jsonDumpsList filtered))
      | Option.none => some v
    | other => some other

/-- Normalized-and-filtered value for one input; `Option.none` means the
attribute is skipped without any request. -/
def planValue (m : MFData) : Option PyVal :=
  let v := normalizeMetafieldValue m.mfType m.value
  if strStartsWith m.mfType "list." && subcatFamilyKey m.ns m.key then
    applyChoiceFilter m.key v
  else some v

/-- A remote write: `PUT` to an existing metafield id carrying only the value
(lines 873-884), or `POST` carrying namespace/key/value/type (885-903). -/
inductive MFRequest where
  | put (id : Nat) (value : PyVal)
  | post (ns key : String) (value : PyVal) (mfType : String)
  deriving DecidableEq, Repr

/-- Lines 869-871 and 940-941: choose update or create from the fetched
identity map. -/
def buildRequest (existing : List ((String × String) × Nat)) (m : MFData)
    (v : PyVal) : MFRequest :=
  match adLookup existing (m.ns, m.key) with
  | some id => MFRequest.put id v
  | Option.none => MFRequest.post m.ns m.key v m.mfType

/-- The slice of an HTTP response the 422 handler reads: the status code and
`errors["value"][0]` when that path exists in the JSON body. -/
structure MFResponse where
  status : Nat
  errorsValue : Option String
  deriving DecidableEq, Repr

/-- Capture of `re.search(r'choices:\s*(\[.*\])', err_str, re.DOTALL)`:
the first position where `choices:` is followed by optional whitespace and
`[`, captured greedily up to the last `]` of the message. -/
def findChoicesCapture : List Char → Option (List Char)
  | [] => Option.none
  | l =>
    match l with
    | [] => Option.none
    | _ :: t =>
      match
        (if chPrefix "choices:".data l then
          let rest := (l.drop 8).dropWhile pyIsSpace
          match rest with
          | '[' :: _ =>
            (match rest.reverse.dropWhile (· ≠ ']') with
             | [] => Option.none
             | r => some r.reverse)
          | _ => Option.none
        else Option.none) with
      | some cap => some cap
      | Option.none => findChoicesCapture t

/-- Lines 914-921: check the error text, capture the embedded choice list,
undo the `\"` and `\/` escaping, strip trailing dots, and `json.loads` it. -/
def extractChoices (err : String) : Option (List String) :=
  if chContains err.data "does not exist in provided choices".data &&
      chContains err.data "[".data then
    match findChoicesCapture err.data with
    | some cap =>
      let captured := String.mk cap
      let cleaned := strReplace (strReplace captured "\\\"" "\"") "\\/" "/"
      let cleaned2 := String.mk ((cleaned.data.reverse.dropWhile (· = '.')).reverse)
      parseStringArray cleaned2
    | Option.none => Option.none
  else Option.none

/-- `_match_choice` (lines 925-932): exact stripped membership first, then the
first allowed choice equal after strip or after strip+lower, returning the
canonical string from the error message. -/
def matchChoice (allowed : List String) (v : String) : Option String :=
  let s := pyStrip v
  if listContainsStr allowed s then some s
  else allowed.find? (fun a => pyStrip a = s || pyLower (pyStrip a) = pyLower s)

/-- Lines 933-937: re-filter the sent values against the error-message
choices. -/
def refilterByChoices (allowed parsed : List String) : List String :=
  parsed.filterMap (matchChoice allowed)

/-- Line 909: the guard selecting the 422 retry path. -/
def retryCondition (m : MFData) (resp : MFResponse) : Bool :=
  resp.status = 422 && strStartsWith m.mfType "list." && m.ns = "custom" &&
    (m.key = "subcategory" || strStartsWith m.key "subcategory_")

/-- Lines 913-941: everything that must succeed for a retry to be attempted;
`Option.none` covers every bail-out (missing/ill-formed error body, value not
a JSON list, empty parsed choice set, or nothing surviving the re-filter),
after which the attribute is recorded as failed. -/
def extractRetryValue (sentValue : PyVal) (resp : MFResponse) : Option PyVal :=
  match resp.errorsValue with
  | Option.none => Option.none
  | some errStr =>
    match extractChoices errStr with
    | Option.none => Option.none
    | some allowed =>
      match sentValue with
      | PyVal.str s =>
        match parseStringArray s with
        | Option.none => Option.none
        | some parsed =>
          if allowed.isEmpty then Option.none
          else
            let filtered := refilterByChoices allowed parsed
            if filtered.isEmpty then Option.none
            else some (PyVal.str (jsonDumpsList filtered))
      | _ => Option.none
  
/-- Outcome of processing one metafield, with the requests actually sent. -/
inductive MFStep where
  | skipped
  | succeeded (requests : List MFRequest)
  | failed (requests : List MFRequest)
  deriving DecidableEq, Repr

/-- Requests sent by a step. -/
def MFStep.requests : MFStep → List MFRequest
  | .skipped => []
  | .succeeded rs => rs
  | .failed rs => rs

/-- Process one metafield against scripted responses for the first send and
the (at most one) retry — the body of the `for metafield_data in
metafields_data` loop, lines 816-961. -/
def processMetafield (existing : List ((String × String) × Nat)) (m : MFData)
    (resp1 resp2 : MFResponse) : MFStep :=
  match planValue m with
  | Option.none => MFStep.skipped
  | some v =>
    let req := buildRequest existing m v
    if resp1.status = 200 || resp1.status = 201 then MFStep.succeeded [req]
    else if retryCondition m resp1 then
      match extractRetryValue v resp1 with
      | Option.none => MFStep.failed [req]
      | some v2 =>
        let req2 := buildRequest existing m v2
        if resp2.status = 200 || resp2.status = 201 then
          MFStep.succeeded [req, req2]
        else MFStep.failed [req, req2]
    else MFStep.failed [req]

/-! ### A faithful remote store for the upsert claim -/

/-- A metafield as the remote platform stores it. -/
structure RemoteMF where
  id : Nat
  ns : String
  key : String
  value : PyVal
  mfType : String
  deriving DecidableEq, Repr

/-- The remote store: its metafields and the next fresh id. -/
structure ServerState where
  metafields : List RemoteMF
  nextId : Nat
  deriving DecidableEq, Repr

/-- Remote semantics of the two writes: `POST` appends a fresh row (201),
`PUT` replaces the value of the addressed row (200, or 404 if absent). -/
def serverApply (st : ServerState) : MFRequest → ServerState × MFResponse
  | MFRequest.post ns k v ty =>
    ({ metafields := st.metafields ++ [⟨st.nextId, ns, k, v, ty⟩],
       nextId := st.nextId + 1 }, ⟨201, Option.none⟩)
  | MFRequest.put id v =>
    if st.metafields.any (fun mf => mf.id = id) then
      ({ st with
         metafields := st.metafields.map
           (fun mf => if mf.id = id then { mf with value := v } else mf) },
       ⟨200, Option.none⟩)
    else (st, ⟨404, Option.none⟩)

/-- Lines 801-811: fetch all existing metafields once and build the identity
map `(namespace, key) -> id`, keeping only rows with nonempty namespace and
key; a later duplicate overwrites (Python dict assignment). -/
def fetchExisting (st : ServerState) : List ((String × String) × Nat) :=
  st.metafields.foldl
    (fun d mf =>
      if mf.ns ≠ "" ∧ mf.key ≠ "" then adInsert d (mf.ns, mf.key) mf.id else d)
    []

/-- Result of one `create_metafields` run against the remote store. -/
structure MFRunResult where
  state : ServerState
  requests : List MFRequest
  successCount : Nat
  errorCount : Nat
  deriving DecidableEq, Repr

/-- `create_metafields` run against the remote-store semantics: the identity
map is fetched once up front, then each input is normalized, filtered,
routed as update-or-create, and retried at most once on a 422 (never taken
with this store, which accepts well-formed writes). -/
def runCreateMetafields (st0 : ServerState) (inputs : List MFData) : MFRunResult :=
  let existing := fetchExisting st0
  inputs.foldl
    (fun acc m =>
      match planValue m with
      | Option.none => acc
      | some v =>
        let req := buildRequest existing m v
        let sr := serverApply acc.state req
        if sr.2.status = 200 || sr.2.status = 201 then
          { acc with
            state := sr.1, requests := acc.requests ++ [req],
            successCount := acc.successCount + 1 }
        else if retryCondition m sr.2 then
          match extractRetryValue v sr.2 with
          | Option.none =>
            { acc with
              state := sr.1, requests := acc.requests ++ [req],
              errorCount := acc.errorCount + 1 }
          | some v2 =>
            let req2 := buildRequest existing m v2
            let sr2 := serverApply sr.1 req2
            if sr2.2.status = 200 || sr2.2.status = 201 then
              { state := sr2.1, requests := acc.requests ++ [req, req2],
                successCount := acc.successCount + 1,
                errorCount := acc.errorCount }
            else
              { state := sr2.1, requests := acc.requests ++ [req, req2],
                successCount := acc.successCount,
                errorCount := acc.errorCount + 1 }
        else
          { acc with
            state := sr.1, requests := acc.requests ++ [req],
            errorCount := acc.errorCount + 1 })
    { state := st0, requests := [], successCount := 0, errorCount := 0 }

/-- Number of remote metafields carrying a given identity. -/
def countKey (l : List RemoteMF) (ns k : String) : Nat :=
  (l.filter (fun mf => mf.ns = ns ∧ mf.key = k)).length

/-! ## `manage_product_media` (Product_Creator.py lines 34-143)

The fetch of the product is modelled by passing the fetched image ids; each
`DELETE` is modelled by an oracle saying whether the platform accepted it. -/

/-- Lines 67-81 and 184-189: normalize one entry of the keep list — for a
`gid://` global identifier take the trailing path segment, otherwise the
stringified id. -/
def normalizeKeepId (mediaId : String) : String :=
  if strStartsWith mediaId "gid://" then lastSplitSeg '/' mediaId else mediaId

/-- Result shape of `manage_product_media`. -/
structure ManageResult where
  mediaToRemove : List String
  removedCount : Nat
  errors : List String
  success : Bool
  deriving DecidableEq, Repr

/-- `manage_product_media` given the fetched image ids and a per-item
deletion oracle.  Every id outside the normalized keep set is attempted;
failures are collected and do not stop the loop; success is reported iff
the error list is empty (lines 89-134). -/
def manage_product_media (existingIds : List Nat) (keep : List String)
    (deleteOk : String → Bool) : ManageResult :=
  let keepIds := keep.map normalizeKeepId
  let toRemove :=
    (existingIds.map toString).filter (fun i => ¬ listContainsStr keepIds i)
  let outcome :=
    toRemove.foldl
      (fun (acc : Nat × List String) i =>
        if deleteOk i then (acc.1 + 1, acc.2)
        else (acc.1, acc.2 ++ ["Failed to remove media " ++ i]))
      (0, [])
  { mediaToRemove := toRemove, removedCount := outcome.1,
    errors := outcome.2, success := outcome.2.isEmpty }

/-! ## `reorder_product_media_by_order` (Product_Creator.py lines 145-374) -/

/-- A fetched product image: id, `created_at` (empty when missing) and
current position (`None` when missing). -/
structure ImgRec where
  id : Nat
  createdAt : String
  position : Option Int
  deriving DecidableEq, Repr

/-- One `media_order` instruction from the frontend; `upload` carries the
(unused by this function) sequence index, `shopify` carries the referenced
media id; both carry an optional explicit position.  Unrecognized `type`
values do nothing in the loop and are modelled by `unknown`. -/
inductive OrderItem where
  | upload (index : Option Nat) (position : Option Int)
  | shopify (id : String) (position : Option Int)
  | unknown (position : Option Int)
  deriving DecidableEq, Repr

/-- `order_item.get('position')`. -/
def OrderItem.position : OrderItem → Option Int
  | .upload _ p => p
  | .shopify _ p => p
  | .unknown p => p

/-- Sort key for newly uploaded images, lines 203-206: the pair
`(created_at or "", id)` compared as Python tuples. -/
def uploadKeyLe (x y : ImgRec) : Bool :=
  if x.createdAt = y.createdAt then x.id ≤ y.id
  else chLt x.createdAt.data y.createdAt.data

/-- Sort key for the fallback branch, line 281: `x.get('position', 999)`. -/
def fallbackKeyLe (x y : ImgRec) : Bool :=
  x.position.getD 999 ≤ y.position.getD 999

/-- One iteration of the `for order_item in media_order` loop
(lines 235-287), transforming `(position_map, upload_positions_processed)`. -/
def reorderStep (existing : List ImgRec) (newUploadIds : List String)
    (acc : List (Int × String) × Nat) (item : OrderItem) :
    List (Int × String) × Nat :=
  let pm := acc.1
  let up := acc.2
  let pos := item.position.getD ((pm.length : Int) + 1)
  match item with
  | OrderItem.shopify mid _ =>
    if (existing.map (fun img => toString img.id)).contains mid then
      (adInsert pm pos mid, up)
    else
      let nid := if chContains mid.data "gid://".data then lastSplitSeg '/' mid else mid
      match (existing.map (fun img => toString img.id)).find? (· = nid) with
      | some imgId => (adInsert pm pos imgId, up)
      | Option.none => (pm, up)
  | OrderItem.upload _ _ =>
    match newUploadIds.get? up with
    | some imageId => (adInsert pm pos imageId, up + 1)
    | Option.none =>
      let remaining :=
        existing.filter
          (fun img => ¬ (pm.map (fun p => p.2)).contains (toString img.id))
      match (stableSort fallbackKeyLe remaining).head? with
      | some img => (adInsert pm pos (toString img.id), up + 1)
      | Option.none => (pm, up)
  | OrderItem.unknown _ => (pm, up)

/-- Minimum key of a nonempty position map (`min(position_map.keys())`). -/
def minKey : List (Int × String) → Option Int
  | [] => Option.none
  | p :: t => some (t.foldl (fun m q => min m q.1) p.1)

/-- Result shape of `reorder_product_media_by_order`: the computed position
map, the successful position writes, the collected per-write errors, the
product-level cover-image write (lines 331-361), and the reported success
(which the cover write does not influence — its failure is only logged). -/
structure ReorderResult where
  positionMap : List (Int × String)
  positionWrites : List (Int × String)
  errors : List String
  mainImageWrite : Option String
  success : Bool
  deriving DecidableEq, Repr

/-- `reorder_product_media_by_order` given the fetched product images, the
order instructions, the kept media ids and a per-write oracle for the
position `PUT`s.  Mirrors lines 159-366: early exit on an empty order list;
newly uploaded images are those not in the normalized keep set, consumed in
`(created_at, id)` order; the cover image is the entry at the minimum
position key. -/
def reorder_product_media_by_order (existing : List ImgRec)
    (mediaOrder : List OrderItem) (shopifyMediaIds : List String)
    (putOk : Int → String → Bool) : ReorderResult :=
  if mediaOrder.isEmpty then
    { positionMap := [], positionWrites := [], errors := [],
      mainImageWrite := Option.none, success := true }
  else
    let keep := shopifyMediaIds.map normalizeKeepId
    let newUploads :=
      stableSort uploadKeyLe
        (existing.filter (fun img => ¬ listContainsStr keep (toString img.id)))
    let newUploadIds := newUploads.map (fun img => toString img.id)
    let pm := (mediaOrder.foldl (reorderStep existing newUploadIds) ([], 0)).1
    let sortedPm := stableSort (fun p q => p.1 ≤ q.1) pm
    let writes := sortedPm.filter (fun p => putOk p.1 p.2)
    let errs :=
      (sortedPm.filter (fun p => ¬ putOk p.1 p.2)).map
        (fun p => "Failed to reorder image " ++ p.2)
    let mainW := (minKey pm).bind (fun k => adLookup pm k)
    { positionMap := pm, positionWrites := writes, errors := errs,
      mainImageWrite := mainW, success := errs.isEmpty }

/-! ## `create_product` (Product_Creator.py lines 978-1861): modelled slices -/

/-- Lines 1013-1023: derive the `taxable` flag from the inbound `charge_vat`
field — absent defaults to true; a string is compared lowercased against
`['true', '1', 'yes']`; anything else goes through `bool()`. -/
def chargeVatFlag : Option PyVal → Bool
  | Option.none => true
  | some (PyVal.str s) => listContainsStr ["true", "1", "yes"] (pyLower s)
  | some v => v.truthy

/-- Line 1811: the variant tax fixup (`Step 5`) runs exactly when the derived
flag is false. -/
def taxFixupRuns (chargeVat : Option PyVal) : Bool := ! chargeVatFlag chargeVat

/-- A product variant slice for `update_product_taxable`. -/
structure VariantRec where
  sku : String
  taxable : Bool
  deriving DecidableEq, Repr

/-- `update_product_taxable` (lines 727-778) on the fetched variants: every
variant is written back with the given `taxable` value. -/
def update_product_taxable (variants : List VariantRec) (taxable : Bool) :
    List VariantRec :=
  variants.map (fun v => { v with taxable := taxable })

/-- A product as the plural-response disambiguation sees it: id, title, and
the parsed `created_at` (already converted to a comparable instant;
`Option.none` models a missing or unparsable timestamp, which the source
skips over). -/
structure RProduct where
  pid : Nat
  title : String
  createdAt : Option Int
  deriving DecidableEq, Repr

/-- First product with exactly the expected title (lines 1242-1246 and
1259-1263). -/
def findByTitle (t : String) (l : List RProduct) : Option RProduct :=
  l.find? (fun p => p.title = t)

/-- Lines 1281-1290: first product whose parsed `created_at` is within the
last minute and whose title matches. -/
def recentMatch (t : String) (oneMinuteAgo : Int) (l : List RProduct) :
    Option RProduct :=
  l.find?
    (fun p =>
      (match p.createdAt with
       | some c => decide (oneMinuteAgo ≤ c)
       | Option.none => false) && p.title = t)

/-- Lines 1230-1306 for a create (no supplied product id) answered with a
`products` list: exact title match in the list, else exact title match in
the follow-up title-search response (`Option.none` models a non-200 search or
a transport error), else the recent-products heuristic. -/
def resolveCreatedProduct (expectedTitle : String) (productsList : List RProduct)
    (searchResp : Option (List RProduct)) (recentResp : Option (List RProduct))
    (oneMinuteAgo : Int) : Option RProduct :=
  let m1 :=
    if expectedTitle ≠ "" then findByTitle expectedTitle productsList
    else Option.none
  match m1 with
  | some p => some p
  | Option.none =>
    if expectedTitle = "" then Option.none
    else
      let m2 :=
        match searchResp with
        | some prods => findByTitle expectedTitle prods
        | Option.none => Option.none
      match m2 with
      | some p => some p
      | Option.none =>
        match recentResp with
        | some prods => recentMatch expectedTitle oneMinuteAgo prods
        | Option.none => Option.none

/-- Terminal outcome of the create when the platform answered with a plural
`products` payload: on resolution the workflow proceeds to its remaining
steps (named abstractly, in source order), otherwise the function returns
`success: False` at line 1301 before any of them. -/
structure CreateOutcome where
  success : Bool
  resolvedId : Option Nat
  subsequentSteps : List String
  deriving DecidableEq, Repr

/-- The control flow around the disambiguation (lines 1230-1306 and the
step sequence that follows a successful resolution). -/
def createProductOnPluralResponse (expectedTitle : String)
    (productsList : List RProduct) (searchResp recentResp : Option (List RProduct))
    (oneMinuteAgo : Int) : CreateOutcome :=
  match resolveCreatedProduct expectedTitle productsList searchResp recentResp
      oneMinuteAgo with
  | Option.none =>
    { success := false, resolvedId := Option.none, subsequentSteps := [] }
  | some p =>
    { success := true, resolvedId := some p.pid,
      subsequentSteps :=
        ["media", "metafields", "variant_delegation", "tax_fixup", "verify"] }

/-! ### Domain selection across the run (claim C9) -/

/-- `STORE_DOMAIN.replace("https://", "").replace("http://", "").rstrip("/")`. -/
def stripDomain (cfg : String) : String :=
  String.mk
    (((strReplace (strReplace cfg "https://" "") "http://" "").data.reverse.dropWhile
        (· = '/')).reverse)

/-- Python `shopify_domain or fallback` (an empty override is falsy). -/
def pyOrStr (o : Option String) (fallback : String) : String :=
  match o with
  | some s => if s = "" then fallback else s
  | Option.none => fallback

/-- The host each remote call of an update-mode `create_product` run places in
its URL, given the configured `STORE_DOMAIN` and the canonical host extracted
from the initial redirect (when any).  Read off the URL constructions:
`manage_product_media` (lines 50, 110), the final image fetch inside
`upload_media_to_product` (line 702), and `update_product_taxable` (line 739)
interpolate the raw `STORE_DOMAIN`; `upload_media_to_product` (line 466),
`reorder_product_media_by_order` (line 166), `create_metafields` (line 794),
the custom-sku metafield fetch (line 1425) and the verification read
(line 1822) take `actual_shopify_domain or STORE_DOMAIN`-with-scheme-stripped. -/
def updateRunCallDomains (cfg : String) (actual : Option String) :
    List (String × String) :=
  [("create_or_update_product", stripDomain cfg),
   ("prune_fetch_product", cfg),
   ("prune_delete_image", cfg),
   ("upload_media", pyOrStr actual (stripDomain cfg)),
   ("upload_final_fetch", cfg),
   ("reorder_by_order", pyOrStr actual (stripDomain cfg)),
   ("fetch_custom_sku", pyOrStr actual (stripDomain cfg)),
   ("metafields", pyOrStr actual (stripDomain cfg)),
   ("tax_fixup", cfg),
   ("verify", pyOrStr actual (stripDomain cfg))]

/-- The `STORE_DOMAIN` override around the Price Bandit delegation
(lines 1741-1808): when a canonical host was discovered, the original value
is saved, the configuration is overridden for the duration of the call, and
the `finally` block restores it whether the delegation returned false or
raised (raised exceptions are caught at lines 1792-1797).  Returns the domain
the collaborator observes, the configured domain after the block, and the
reported delegation success. -/
def runVariantDelegation (cfg : String) (actual : Option String)
    (delegationRaises delegationResult : Bool) : String × String × Bool :=
  let savedOriginal : Option String :=
    match actual with
    | some _ => some cfg
    | Option.none => Option.none
  let cfgDuring :=
    match actual with
    | some d => d
    | Option.none => cfg
  let cfgFinal :=
    match savedOriginal with
    | some o => o
    | Option.none => cfgDuring
  (cfgDuring, cfgFinal, if delegationRaises then false else delegationResult)

/-! ## Helper lemmas -/

theorem listContains_eq_isSome (l : List String) (a : String) :
    listContainsStr l a = (listFindIdx (· = a) l).isSome := by
  induction l with
  | nil => rfl
  | cons x t ih =>
    by_cases h : x = a
    · simp [listContainsStr, listFindIdx, h]
    · simp only [listContainsStr, listFindIdx, List.any_cons] at *
      simp [h, ih]

theorem dropWhile_eq_self_of_head {p : Char → Bool} (l : List Char)
    (h : ∀ c, l.head? = some c → p c = false) : l.dropWhile p = l := by
  cases l with
  | nil => rfl
  | cons a t => simp [List.dropWhile_cons, h a rfl]

theorem pyStrip_eq_self_of_brackets (s : String)
    (h1 : s.data.head? = some '[') (h2 : s.data.getLast? = some ']') :
    pyStrip s = s := by
  have hfront : s.data.dropWhile pyIsSpace = s.data := by
    apply dropWhile_eq_self_of_head
    intro c hc
    rw [h1] at hc
    cases hc
    decide
  have hback : s.data.reverse.dropWhile pyIsSpace = s.data.reverse := by
    apply dropWhile_eq_self_of_head
    intro c hc
    rw [List.head?_reverse, h2] at hc
    cases hc
    decide
  show String.mk (pyStripList s.data) = s
  rw [pyStripList, hfront, hback, List.reverse_reverse]

theorem jsonDumpsList_head (xs : List String) :
    (jsonDumpsList xs).data.head? = some '[' := rfl

theorem jsonDumpsList_getLast (xs : List String) :
    (jsonDumpsList xs).data.getLast? = some ']' := by
  show (('[' :: joinCommaSep (xs.map jsonLitChars)) ++ [']']).getLast? = some ']'
  rw [List.getLast?_concat]

theorem jsonEscFold_len_pos (l : List Char) :
    1 ≤ (l.foldr (fun c acc => jsonEscapeChar c ++ acc) ['"']).length := by
  induction l with
  | nil => simp
  | cons a t ih =>
    simp only [List.foldr_cons, List.length_append]
    omega

theorem jsonDumps_single_len (v : String) :
    4 ≤ (jsonDumpsList [v]).data.length := by
  show 4 ≤ ('[' :: joinCommaSep ([v].map jsonLitChars) ++ [']']).length
  simp only [List.map_cons, List.map_nil, joinCommaSep, jsonLitChars,
    List.length_append, List.length_cons]
  have := jsonEscFold_len_pos v.data
  omega

theorem jsonDumps_single_ne_empty (v : String) : jsonDumpsList [v] ≠ "" := by
  intro h
  have := congrArg (fun s => s.data.length) h
  simp only at this
  have := jsonDumps_single_len v
  rw [h] at this
  simp at this

theorem jsonDumps_single_ne_brackets (v : String) : jsonDumpsList [v] ≠ "[]" := by
  intro h
  have hlen := jsonDumps_single_len v
  rw [h] at hlen
  simp at hlen

theorem string_ne_empty_of_head {s : String} {c : Char}
    (h : s.data.head? = some c) : s ≠ "" := by
  intro he
  rw [he] at h
  cases h

/-! ## Claim C3 (code bug evidence) -/

/-- C3: the claim says `format_price` parses its argument as an exact decimal,
rounds half-up to two fractional digits, and on any parse failure returns the
input unchanged without ever raising.  The rounding part holds, but an
unparsable input such as "abc" makes `Decimal(str(price))` raise
`decimal.InvalidOperation` (an `ArithmeticError`), which the
`except (ValueError, TypeError)` clause at line 31 does not catch, so the
exception escapes instead of the input being returned. -/
theorem format_price_unparsable_raises :
    format_price "abc" = PyOutcome.exn "decimal.InvalidOperation"
    ∧ format_price "1.005" = PyOutcome.ok "1.01"
    ∧ format_price "2" = PyOutcome.ok "2.00"
    ∧ format_price "-1.005" = PyOutcome.ok "-1.01" := by
  refine ⟨rfl, rfl, ?_, ?_⟩ <;> decide

/-! ## Claim C10 -/

/-- C10: the `taxable` flag defaults to true when `charge_vat` is absent; a
string is taxable exactly when its lowercase form is `'true'`, `'1'` or
`'yes'` (so `'YES'` is taxable but `'on'` and `' true'` are not); other
values are coerced with `bool()`; and the post-delegation variant tax fixup
runs exactly when the flag is false, writing `taxable=false` on every
fetched variant. -/
theorem charge_vat_taxable_rule :
    chargeVatFlag Option.none = true
    ∧ (∀ s : String,
        chargeVatFlag (some (PyVal.str s)) =
          listContainsStr ["true", "1", "yes"] (pyLower s))
    ∧ chargeVatFlag (some (PyVal.str "YES")) = true
    ∧ chargeVatFlag (some (PyVal.str "on")) = false
    ∧ chargeVatFlag (some (PyVal.str " true")) = false
    ∧ chargeVatFlag (some PyVal.none) = false
    ∧ (∀ b, chargeVatFlag (some (PyVal.bool b)) = b)
    ∧ (∀ n : Int, chargeVatFlag (some (PyVal.int n)) = (PyVal.int n).truthy)
    ∧ (∀ v, taxFixupRuns v = ! chargeVatFlag v)
    ∧ (∀ (vs : List VariantRec) (b : Bool),
        (update_product_taxable vs b).map VariantRec.taxable =
          vs.map (fun _ => b)) := by
  refine ⟨rfl, fun s => rfl, by decide, by decide, by decide, rfl,
    fun b => rfl, fun n => rfl, fun v => rfl, fun vs b => ?_⟩
  have h : (VariantRec.taxable ∘ fun v : VariantRec => { v with taxable := b }) =
      fun _ => b := funext (fun v => rfl)
  rw [update_product_taxable, List.map_map, h]

/-! ## Counterexamples for the corrected claims -/

/-- C8 counterexample: the claim asserts that for every `list.`-typed input
the normalized value is a JSON array string.  A `None` value under a list
type passes through both `isinstance(..., str)` guards of lines 825 and 845
untouched, so the normalized value stays `None` — neither a string nor an
array — where the claim would require `["-"]`. -/
theorem list_value_none_passthrough :
    normalizeMetafieldValue "list.single_line_text_field" PyVal.none = PyVal.none
    ∧ PyVal.none ≠ PyVal.str "[\"-\"]" := by
  exact ⟨rfl, by decide⟩

/-- C5 counterexample: the claim asserts the value array of every
`custom`/`subcategory*` list metafield is filtered to that key's
allowed-choice set, with an emptied array causing a skip.  For
`subcategory_3` the allowed-choice set is empty, and the `if allowed:` guard
at line 857 then skips filtering altogether: a value surviving no choice is
still sent unfiltered rather than the attribute being skipped. -/
theorem subcategory_overflow_unfiltered :
    get_metafield_choices "subcategory_3" = []
    ∧ planValue
        ⟨"custom", "subcategory_3", PyVal.str "[\"No Such Label\"]",
          "list.single_line_text_field"⟩ =
        some (PyVal.str "[\"No Such Label\"]")
    ∧ some (PyVal.str "[\"No Such Label\"]") ≠ (Option.none : Option PyVal) := by
  refine ⟨by decide, by decide, by decide⟩

/-- C9 counterexample: the claim asserts the discovered canonical host is
substituted into all subsequent remote calls.  The media prune step
(`manage_product_media`, an update-mode media call issued after the redirect
is detected) interpolates the raw configured `STORE_DOMAIN` at lines 50 and
110 and never receives the discovered host, unlike the reorder call. -/
theorem prune_call_keeps_configured_domain :
    adLookup (updateRunCallDomains "store.example.com" (some "store.myshopify.com"))
        "prune_fetch_product" = some "store.example.com"
    ∧ adLookup (updateRunCallDomains "store.example.com" (some "store.myshopify.com"))
        "reorder_by_order" = some "store.myshopify.com"
    ∧ ("store.example.com" : String) ≠ "store.myshopify.com" := by
  refine ⟨by decide, by decide, by decide⟩

/-! ## Claim C7 -/

theorem manage_fold_spec (ok : String → Bool) (l : List String) (c0 : Nat)
    (e0 : List String) :
    l.foldl
      (fun (acc : Nat × List String) i =>
        if ok i then (acc.1 + 1, acc.2)
        else (acc.1, acc.2 ++ ["Failed to remove media " ++ i]))
      (c0, e0) =
    (c0 + (l.filter ok).length,
      e0 ++ (l.filter (fun i => ! ok i)).map
        (fun i => "Failed to remove media " ++ i)) := by
  induction l generalizing c0 e0 with
  | nil => simp
  | cons x t ih =>
    by_cases h : ok x
    · simp [List.filter_cons, h, ih]
      omega
    · simp [List.filter_cons, h, ih]

/-- C7: `manage_product_media` deletes exactly the fetched media whose
stringified id (trailing path segment for `gid://` identifiers) is missing
from the keep-list — concretely, existing `[1@1, 2@2, 3@3]` with keep-list
`["1", "3"]` removes exactly `["2"]`; every per-item deletion failure is
collected while the loop continues over all remaining removals, and the
result reports success exactly when the collected error list is empty. -/
theorem manage_media_prune_spec :
    (manage_product_media [1, 2, 3] ["1", "3"] (fun _ => true)).mediaToRemove = ["2"]
    ∧ normalizeKeepId "gid://shopify/MediaImage/42" = "42"
    ∧ (∀ (existingIds : List Nat) (keep : List String) (deleteOk : String → Bool),
        ((manage_product_media existingIds keep deleteOk).success = true ↔
          (manage_product_media existingIds keep deleteOk).errors = [])
        ∧ (∀ x : String,
            x ∈ (manage_product_media existingIds keep deleteOk).mediaToRemove ↔
              x ∈ existingIds.map toString ∧
                listContainsStr (keep.map normalizeKeepId) x = false)
        ∧ (manage_product_media existingIds keep deleteOk).errors =
            ((manage_product_media existingIds keep deleteOk).mediaToRemove.filter
              (fun i => ! deleteOk i)).map
              (fun i => "Failed to remove media " ++ i)
        ∧ (manage_product_media existingIds keep deleteOk).removedCount =
            ((manage_product_media existingIds keep deleteOk).mediaToRemove.filter
              deleteOk).length) := by
  refine ⟨by decide, by decide, fun existingIds keep deleteOk => ?_⟩
  simp only [manage_product_media, manage_fold_spec, List.nil_append, Nat.zero_add]
  refine ⟨?_, fun x => ?_, ?_, ?_⟩
  · simp [List.isEmpty_iff]
  · simp [List.mem_filter]
  · trivial
  · trivial

/-- C7 witness: the universally quantified part instantiated at a concrete
run whose second deletion fails. -/
theorem manage_media_prune_witness :
    ((manage_product_media [5, 6] ["6"] (fun i => i ≠ "5")).success = true ↔
      (manage_product_media [5, 6] ["6"] (fun i => i ≠ "5")).errors = []) :=
  (manage_media_prune_spec.2.2 [5, 6] ["6"] (fun i => i ≠ "5")).1

/-! ## Claim C9 (corrected): substitution pattern and the override restore -/

/-- C9 (amended): the discovered canonical host is substituted into the media
upload/attach call, the reorder-by-order call, the custom-sku metafield
fetch, the metafield writes and the final verification read; the media prune
call, the post-upload image fetch and the variant tax fixup keep using the
raw configured `STORE_DOMAIN`; and the `STORE_DOMAIN` override installed
around the variant-generation delegation is restored afterwards, whether the
delegation returns false or raises. -/
theorem redirect_domain_substitution :
    (∀ (cfg d : String), d ≠ "" →
      adLookup (updateRunCallDomains cfg (some d)) "upload_media" = some d
      ∧ adLookup (updateRunCallDomains cfg (some d)) "reorder_by_order" = some d
      ∧ adLookup (updateRunCallDomains cfg (some d)) "fetch_custom_sku" = some d
      ∧ adLookup (updateRunCallDomains cfg (some d)) "metafields" = some d
      ∧ adLookup (updateRunCallDomains cfg (some d)) "verify" = some d
      ∧ adLookup (updateRunCallDomains cfg (some d)) "prune_fetch_product" = some cfg
      ∧ adLookup (updateRunCallDomains cfg (some d)) "prune_delete_image" = some cfg
      ∧ adLookup (updateRunCallDomains cfg (some d)) "upload_final_fetch" = some cfg
      ∧ adLookup (updateRunCallDomains cfg (some d)) "tax_fixup" = some cfg)
    ∧ (∀ (cfg : String) (actual : Option String) (raises result : Bool),
        (runVariantDelegation cfg actual raises result).2.1 = cfg)
    ∧ (∀ (cfg d : String) (raises result : Bool),
        (runVariantDelegation cfg (some d) raises result).1 = d) := by
  refine ⟨fun cfg d hd => ?_, fun cfg actual raises result => ?_,
    fun cfg d raises result => rfl⟩
  · simp [updateRunCallDomains, adLookup, List.find?, pyOrStr, hd]
  · cases actual <;> rfl

/-- C9 witness: a concrete run with a discovered canonical host and a raising
delegation. -/
theorem redirect_domain_substitution_witness :
    adLookup (updateRunCallDomains "cfg.example.com" (some "canon.myshopify.com"))
        "upload_media" = some "canon.myshopify.com" :=
  (redirect_domain_substitution.1 "cfg.example.com" "canon.myshopify.com"
    (by decide)).1

/-! ## Claim C2 -/

theorem find_first_of_pairwise {α : Type} (R : α → α → Prop) (p : α → Bool) :
    ∀ (l : List α), l.Pairwise R → ∀ a, l.find? p = some a →
      ∀ b ∈ l, p b = true → a = b ∨ R a b := by
  intro l
  induction l with
  | nil => intro _ a ha; cases ha
  | cons x t ih =>
    intro hp a ha b hb hpb
    rw [List.pairwise_cons] at hp
    by_cases hx : p x
    · rw [List.find?_cons_of_pos _ hx] at ha
      cases ha
      rcases List.mem_cons.mp hb with hbx | hbt
      · exact Or.inl hbx.symm
      · exact Or.inr (hp.1 b hbt)
    · rw [List.find?_cons_of_neg _ hx] at ha
      rcases List.mem_cons.mp hb with hbx | hbt
      · rw [hbx] at hpb; exact absurd hpb hx
      · exact ih hp.2 a ha b hbt hpb

/-- C2: when a create run (no supplied product id) is answered with a plural
`products` list, the intended entity is resolved by exact title match in the
list, else by exact title match in the follow-up title-search response, else
by the first recent product created within the last minute whose title
matches (the most recently created such product when the recent list is
ordered newest-first); and when all three fail the run returns a failure
result with no subsequent workflow step executed. -/
theorem create_plural_disambiguation :
    ∀ (t : String) (plist : List RProduct)
      (searchR recentR : Option (List RProduct)) (ago : Int),
      t ≠ "" →
      ((∀ p, findByTitle t plist = some p →
          resolveCreatedProduct t plist searchR recentR ago = some p)
      ∧ (findByTitle t plist = Option.none →
          ∀ sl q, searchR = some sl → findByTitle t sl = some q →
            resolveCreatedProduct t plist searchR recentR ago = some q)
      ∧ (findByTitle t plist = Option.none →
          (match searchR with
           | some sl => findByTitle t sl
           | Option.none => Option.none) = Option.none →
          resolveCreatedProduct t plist searchR recentR ago =
            (match recentR with
             | some rl => recentMatch t ago rl
             | Option.none => Option.none))
      ∧ (resolveCreatedProduct t plist searchR recentR ago = Option.none →
          createProductOnPluralResponse t plist searchR recentR ago =
            { success := false, resolvedId := Option.none, subsequentSteps := [] })
      ∧ (∀ rl p, recentR = some rl →
          rl.Pairwise (fun a b => b.createdAt.getD 0 ≤ a.createdAt.getD 0) →
          recentMatch t ago rl = some p →
          ∀ q ∈ rl,
            ((match q.createdAt with
              | some c => decide (ago ≤ c)
              | Option.none => false) && q.title = t) = true →
            p = q ∨ q.createdAt.getD 0 ≤ p.createdAt.getD 0)) := by
  intro t plist searchR recentR ago ht
  refine ⟨fun p hp => ?_, fun h1 sl q hsl hq => ?_, fun h1 h2 => ?_,
    fun hres => ?_, fun rl p hrl hsort hfind q hq hpq => ?_⟩
  · simp [resolveCreatedProduct, ht, hp]
  · subst hsl
    simp [resolveCreatedProduct, ht, h1, hq]
  · cases hs : searchR with
    | none =>
      simp [resolveCreatedProduct, ht, h1]
    | some sl =>
      rw [hs] at h2
      have h2x : findByTitle t sl = Option.none := h2
      simp [resolveCreatedProduct, ht, h1, h2x]
  · simp [createProductOnPluralResponse, hres]
  · exact find_first_of_pairwise _ _ rl hsort p hfind q hq hpq

/-- C2 witness: a run where the list lacks the title but the follow-up search
resolves it; instantiates the search branch of the disambiguation theorem. -/
theorem create_plural_disambiguation_witness :
    resolveCreatedProduct "Choc Bar" [⟨1, "Other", Option.none⟩]
        (some [⟨2, "Choc Bar", Option.none⟩]) Option.none 0 =
      some ⟨2, "Choc Bar", Option.none⟩ :=
  ((create_plural_disambiguation "Choc Bar" [⟨1, "Other", Option.none⟩]
      (some [⟨2, "Choc Bar", Option.none⟩]) Option.none 0 (by decide)).2.1)
    (by decide) [⟨2, "Choc Bar", Option.none⟩] ⟨2, "Choc Bar", Option.none⟩
    rfl (by decide)

/-! ## Claim C1 -/

theorem bbFoldlMin_le_init (l : List Int) : ∀ a : Int, l.foldl min a ≤ a := by
  induction l with
  | nil => intro a; simp
  | cons x t ih =>
    intro a
    simp only [List.foldl_cons]
    exact le_trans (ih (min a x)) (min_le_left a x)

theorem bbFoldlMin_le_mem (l : List Int) :
    ∀ (a b : Int), b ∈ l → l.foldl min a ≤ b := by
  induction l with
  | nil => intro a b hb; cases hb
  | cons x t ih =>
    intro a b hb
    simp only [List.foldl_cons]
    rcases List.mem_cons.mp hb with h | h
    · subst h
      exact le_trans (bbFoldlMin_le_init t (min a b)) (min_le_right a b)
    · exact ih (min a x) b h

theorem bbFoldlMin_mem (l : List Int) :
    ∀ a : Int, l.foldl min a = a ∨ l.foldl min a ∈ l := by
  induction l with
  | nil => intro a; exact Or.inl rfl
  | cons x t ih =>
    intro a
    simp only [List.foldl_cons]
    rcases ih (min a x) with h | h
    · by_cases hax : a ≤ x
      · left
        rw [h, min_eq_left hax]
      · right
        rw [h, min_eq_right (le_of_not_le hax)]
        exact List.mem_cons_self x t
    · right
      exact List.mem_cons_of_mem x h

theorem minKey_spec (pm : List (Int × String)) (k : Int) (h : minKey pm = some k) :
    (∃ p ∈ pm, p.1 = k) ∧ ∀ p ∈ pm, k ≤ p.1 := by
  cases pm with
  | nil => cases h
  | cons q t =>
    simp only [minKey, Option.some.injEq] at h
    have hmap : t.foldl (fun m p => min m p.1) q.1 = (t.map Prod.fst).foldl min q.1 := by
      rw [List.foldl_map]
    rw [hmap] at h
    constructor
    · rcases bbFoldlMin_mem (t.map Prod.fst) q.1 with he | he
      · exact ⟨q, List.mem_cons_self q t, by rw [← h, he]⟩
      · rw [h] at he
        rcases List.mem_map.mp he with ⟨p, hp, hpk⟩
        exact ⟨p, List.mem_cons_of_mem q hp, hpk⟩
    · intro p hp
      rw [← h]
      rcases List.mem_cons.mp hp with h1 | h1
      · subst h1
        exact bbFoldlMin_le_init _ _
      · exact bbFoldlMin_le_mem _ _ _ (List.mem_map_of_mem Prod.fst h1)

theorem adLookup_of_keyMem {β : Type} (pm : List (Int × β)) (k : Int)
    (h : ∃ p ∈ pm, p.1 = k) : ∃ v, adLookup pm k = some v ∧ (k, v) ∈ pm := by
  induction pm with
  | nil =>
    rcases h with ⟨p, hp, _⟩
    cases hp
  | cons q t ih =>
    by_cases hq : q.1 = k
    · refine ⟨q.2, ?_, ?_⟩
      · simp [adLookup, List.find?_cons_of_pos, hq]
      · rw [← hq]
        exact List.mem_cons_self (q.1, q.2) t
    · rcases h with ⟨p, hp, hpk⟩
      rcases List.mem_cons.mp hp with h1 | h1
      · rw [h1] at hpk
        exact absurd hpk hq
      · rcases ih ⟨p, h1, hpk⟩ with ⟨v, hv, hmem⟩
        refine ⟨v, ?_, List.mem_cons_of_mem q hmem⟩
        rw [adLookup, List.find?_cons_of_neg _ (by simpa using hq)]
        exact hv

theorem reorder_mainImageWrite_eq (existing : List ImgRec)
    (mediaOrder : List OrderItem) (keep : List String)
    (putOk : Int → String → Bool) :
    (reorder_product_media_by_order existing mediaOrder keep putOk).mainImageWrite =
      (minKey
        (reorder_product_media_by_order existing mediaOrder keep putOk).positionMap).bind
        (fun k =>
          adLookup
            (reorder_product_media_by_order existing mediaOrder keep putOk).positionMap
            k) := by
  by_cases h : mediaOrder.isEmpty <;>
    simp [reorder_product_media_by_order, h, minKey]

/-- C1: on a product carrying existing media `101` (kept) and exactly one
newly uploaded image `202`, the order instructions
`[upload#0@pos1, shopify#101@pos2]` produce the position map
`[(1, "202"), (2, "101")]` and image `202` is written back as the cover
image; and in every run whose computed position map is non-empty, the media
id written back as the product cover is the one the map assigns to its
minimum position key. -/
theorem reorder_positionmap_and_cover :
    ((reorder_product_media_by_order
        [⟨101, "2024-01-01T10:00:00-05:00", some 1⟩,
         ⟨202, "2024-01-02T10:00:00-05:00", some 2⟩]
        [OrderItem.upload (some 0) (some 1), OrderItem.shopify "101" (some 2)]
        ["101"] (fun _ _ => true)).positionMap = [(1, "202"), (2, "101")]
      ∧ (reorder_product_media_by_order
          [⟨101, "2024-01-01T10:00:00-05:00", some 1⟩,
           ⟨202, "2024-01-02T10:00:00-05:00", some 2⟩]
          [OrderItem.upload (some 0) (some 1), OrderItem.shopify "101" (some 2)]
          ["101"] (fun _ _ => true)).mainImageWrite = some "202")
    ∧ (∀ (existing : List ImgRec) (mediaOrder : List OrderItem)
        (keep : List String) (putOk : Int → String → Bool),
        (reorder_product_media_by_order existing mediaOrder keep putOk).positionMap ≠ [] →
        ∃ k i,
          (reorder_product_media_by_order existing mediaOrder keep putOk).mainImageWrite =
            some i
          ∧ (k, i) ∈
              (reorder_product_media_by_order existing mediaOrder keep putOk).positionMap
          ∧ ∀ p ∈ (reorder_product_media_by_order existing mediaOrder keep
                putOk).positionMap,
              k ≤ p.1) := by
  refine ⟨⟨by decide, by decide⟩, fun existing mediaOrder keep putOk hne => ?_⟩
  cases hmk :
      minKey (reorder_product_media_by_order existing mediaOrder keep putOk).positionMap with
  | none =>
    cases hp : (reorder_product_media_by_order existing mediaOrder keep putOk).positionMap with
    | nil => exact absurd hp hne
    | cons q t =>
      rw [hp] at hmk
      simp [minKey] at hmk
  | some k =>
    obtain ⟨hexists, hlb⟩ := minKey_spec _ k hmk
    obtain ⟨v, hv, hmem⟩ := adLookup_of_keyMem _ k hexists
    refine ⟨k, v, ?_, hmem, hlb⟩
    rw [reorder_mainImageWrite_eq, hmk]
    simpa using hv

/-- C1 witness: the cover-image part instantiated at a one-image upload run. -/
theorem reorder_cover_witness :
    ∃ k i,
      (reorder_product_media_by_order [⟨7, "", Option.none⟩]
          [OrderItem.upload Option.none Option.none] []
          (fun _ _ => true)).mainImageWrite = some i
      ∧ (k, i) ∈
          (reorder_product_media_by_order [⟨7, "", Option.none⟩]
            [OrderItem.upload Option.none Option.none] []
            (fun _ _ => true)).positionMap
      ∧ ∀ p ∈ (reorder_product_media_by_order [⟨7, "", Option.none⟩]
            [OrderItem.upload Option.none Option.none] []
            (fun _ _ => true)).positionMap,
          k ≤ p.1 :=
  reorder_positionmap_and_cover.2 [⟨7, "", Option.none⟩]
    [OrderItem.upload Option.none Option.none] [] (fun _ _ => true) (by decide)

/-! ## Claim C8 (corrected): list-value normalization shape -/

theorem wrapListValue_str (ty s : String) (hty : strStartsWith ty "list." = true) :
    wrapListValue ty (PyVal.str s) =
      (if pyStrip s = "" then PyVal.str s
       else if bracketShaped (pyStrip s) then PyVal.str (pyStrip s)
       else PyVal.str (jsonDumpsList [pyStrip s])) := by
  by_cases h : pyStrip s = "" <;> simp [wrapListValue, hty, h]

theorem blankFix_list_str (ty v : String) (hty : strStartsWith ty "list." = true) :
    blankFix ty (PyVal.str v) =
      (if pyStrip v = "" || pyStrip v = "[]" then PyVal.str (jsonDumpsList ["-"])
       else PyVal.str v) := by
  simp [blankFix, hty]

theorem bracketShaped_parts {v : String} (h : bracketShaped v = true) :
    v.data.head? = some '[' ∧ v.data.getLast? = some ']' := by
  rw [bracketShaped, Bool.and_eq_true] at h
  exact ⟨of_decide_eq_true h.1, of_decide_eq_true h.2⟩

/-- C8 (amended): for every `list.`-typed metafield whose value is a string,
the normalized value is a string of JSON-array shape (it begins with `[` and
ends with `]`, by the wrap heuristic of line 828) and is never a bare blank:
a blank value and the empty array `"[]"` are replaced with the one-element
array `["-"]`, and a non-empty bare scalar that is not already
bracket-delimited is wrapped via `json.dumps` as a one-element array;
non-string values pass through the normalization unchanged; for non-list
types a blank or `None` value becomes the literal placeholder `"-"`. -/
theorem list_value_normalization_shape :
    (∀ (ty s : String), strStartsWith ty "list." = true →
      ∃ t, normalizeMetafieldValue ty (PyVal.str s) = PyVal.str t
        ∧ t.data.head? = some '[' ∧ t.data.getLast? = some ']' ∧ t ≠ "")
    ∧ (∀ ty s, strStartsWith ty "list." = true → pyStrip s = "" →
        normalizeMetafieldValue ty (PyVal.str s) = PyVal.str "[\"-\"]")
    ∧ (∀ ty s, strStartsWith ty "list." = true → pyStrip s = "[]" →
        normalizeMetafieldValue ty (PyVal.str s) = PyVal.str "[\"-\"]")
    ∧ (∀ ty s, strStartsWith ty "list." = true → pyStrip s ≠ "" →
        bracketShaped (pyStrip s) = false →
        normalizeMetafieldValue ty (PyVal.str s) =
          PyVal.str (jsonDumpsList [pyStrip s]))
    ∧ (∀ (ty : String) (v : PyVal), strStartsWith ty "list." = true →
        (v = PyVal.none ∨ (∃ b, v = PyVal.bool b) ∨ (∃ n, v = PyVal.int n)) →
        normalizeMetafieldValue ty v = v)
    ∧ (∀ ty s, strStartsWith ty "list." = false → pyStrip s = "" →
        normalizeMetafieldValue ty (PyVal.str s) = PyVal.str "-")
    ∧ (∀ ty, strStartsWith ty "list." = false →
        normalizeMetafieldValue ty PyVal.none = PyVal.str "-") := by
  have hstep : ∀ (ty s : String), strStartsWith ty "list." = true →
      normalizeMetafieldValue ty (PyVal.str s) =
        (if pyStrip s = "" then PyVal.str (jsonDumpsList ["-"])
         else if bracketShaped (pyStrip s) then
           (if pyStrip (pyStrip s) = "" || pyStrip (pyStrip s) = "[]" then
             PyVal.str (jsonDumpsList ["-"])
            else PyVal.str (pyStrip s))
         else PyVal.str (jsonDumpsList [pyStrip s])) := by
    intro ty s hty
    rw [normalizeMetafieldValue, wrapListValue_str ty s hty]
    by_cases h1 : pyStrip s = ""
    · simp only [h1, if_pos rfl, if_true]
      rw [blankFix_list_str ty s hty, h1]
      simp
    · rw [if_neg h1]
      by_cases h2 : bracketShaped (pyStrip s)
      · rw [if_pos h2, blankFix_list_str ty (pyStrip s) hty]
        simp [h1, h2]
      · rw [if_neg h2, blankFix_list_str ty (jsonDumpsList [pyStrip s]) hty]
        have hself : pyStrip (jsonDumpsList [pyStrip s]) = jsonDumpsList [pyStrip s] :=
          pyStrip_eq_self_of_brackets _ (jsonDumpsList_head _) (jsonDumpsList_getLast _)
        rw [hself]
        simp [jsonDumps_single_ne_empty, jsonDumps_single_ne_brackets, h1, h2]
  refine ⟨?_, ?_, ?_, ?_, ?_, ?_, ?_⟩
  · intro ty s hty
    rw [hstep ty s hty]
    by_cases h1 : pyStrip s = ""
    · rw [if_pos h1]
      exact ⟨jsonDumpsList ["-"], rfl, jsonDumpsList_head _, jsonDumpsList_getLast _,
        jsonDumps_single_ne_empty _⟩
    · rw [if_neg h1]
      by_cases h2 : bracketShaped (pyStrip s)
      · rw [if_pos h2]
        by_cases h3 : pyStrip (pyStrip s) = "" || pyStrip (pyStrip s) = "[]"
        · rw [if_pos h3]
          exact ⟨jsonDumpsList ["-"], rfl, jsonDumpsList_head _,
            jsonDumpsList_getLast _, jsonDumps_single_ne_empty _⟩
        · rw [if_neg h3]
          obtain ⟨hh, hl⟩ := bracketShaped_parts h2
          exact ⟨pyStrip s, rfl, hh, hl, string_ne_empty_of_head hh⟩
      · rw [if_neg h2]
        exact ⟨jsonDumpsList [pyStrip s], rfl, jsonDumpsList_head _,
          jsonDumpsList_getLast _, jsonDumps_single_ne_empty _⟩
  · intro ty s hty hs
    rw [hstep ty s hty, if_pos hs]
    rfl
  · intro ty s hty hs
    rw [hstep ty s hty, if_neg (by rw [hs]; decide),
      if_pos (show bracketShaped (pyStrip s) = true by rw [hs]; decide),
      if_pos (by rw [hs]; decide)]
    rfl
  · intro ty s hty h1 h2
    rw [hstep ty s hty, if_neg h1, if_neg (by rw [h2]; decide)]
  · intro ty v hty hv
    rcases hv with h | ⟨b, h⟩ | ⟨n, h⟩ <;>
      · subst h
        simp [normalizeMetafieldValue, wrapListValue, blankFix, hty]
  · intro ty s hty hs
    simp [normalizeMetafieldValue, wrapListValue, blankFix, hty, hs]
  · intro ty hty
    simp [normalizeMetafieldValue, wrapListValue, blankFix, hty]

/-- C8 witness: a bare scalar under a list type is wrapped as a one-element
JSON array. -/
theorem list_value_normalization_witness :
    normalizeMetafieldValue "list.single_line_text_field" (PyVal.str "hello") =
      PyVal.str (jsonDumpsList [pyStrip "hello"]) :=
  list_value_normalization_shape.2.2.2.1 "list.single_line_text_field" "hello"
    (by decide) (by decide) (by decide)

/-! ## Claim C4 -/

theorem idxChain_eq (l : List String) (s n : String) (p3 : String → Bool) :
    (if listContainsStr l s then listFindIdx (· = s) l
     else if listContainsStr l n then listFindIdx (· = n) l
     else listFindIdx p3 l) =
    (match listFindIdx (· = s) l with
     | some i => some i
     | Option.none =>
       match listFindIdx (· = n) l with
       | some i => some i
       | Option.none => listFindIdx p3 l) := by
  rw [listContains_eq_isSome l s, listContains_eq_isSome l n]
  cases listFindIdx (· = s) l <;> cases listFindIdx (· = n) l <;> simp

/-- C4: `get_subcategory_metafield_key` is a pure total function that refines
the spec bucket rule: the label is resolved by exact match, else
whitespace-normalized match, else case-insensitive normalized match against
`SUBCATEGORIES`; a resolved index before the sentinel "Sweets" (index 109)
yields `"subcategory"`, the sentinel and later indices yield
`"subcategory_2"`, and an unknown or empty label defaults to
`"subcategory"`. -/
theorem subcategory_bucket_refines_spec :
    (∀ s : String,
      get_subcategory_metafield_key s = (specBucketFor s).metafieldKey)
    ∧ (∀ s : String, get_subcategory_metafield_key s = "subcategory"
        ∨ get_subcategory_metafield_key s = "subcategory_2")
    ∧ specSweetsIndex = 109
    ∧ subcategory_2_start_index = specSweetsIndex
    ∧ SUBCATEGORIES.getD specSweetsIndex "" = "Sweets"
    ∧ specBucketFor "" = Bucket.primary
    ∧ get_subcategory_metafield_key "Bars" = "subcategory"
    ∧ get_subcategory_metafield_key "Sweets" = "subcategory_2"
    ∧ get_subcategory_metafield_key "Unknown Label" = "subcategory" := by
  have hidx : subcategory_2_start_index = specSweetsIndex := rfl
  have hmain : ∀ s : String,
      get_subcategory_metafield_key s = (specBucketFor s).metafieldKey := by
    intro s
    by_cases hs : pyStrip s = ""
    · simp only [get_subcategory_metafield_key, specBucketFor, specResolveIndex, hs]
      decide
    · simp only [get_subcategory_metafield_key, specBucketFor, specResolveIndex, hs,
        if_false, if_neg hs]
      rw [idxChain_eq SUBCATEGORIES (pyStrip s) (normWS (pyStrip s))]
      cases hA : listFindIdx (· = pyStrip s) SUBCATEGORIES with
      | some i =>
        rw [hidx]
        by_cases hlt : i < specSweetsIndex <;> simp [Bucket.metafieldKey, hlt]
      | none =>
        cases hB : listFindIdx (· = normWS (pyStrip s)) SUBCATEGORIES with
        | some i =>
          rw [hidx]
          by_cases hlt : i < specSweetsIndex <;> simp [Bucket.metafieldKey, hlt]
        | none =>
          cases hC : listFindIdx
              (fun c => normWS c = normWS (pyStrip s)
                || pyLower (normWS c) = pyLower (normWS (pyStrip s)))
              SUBCATEGORIES with
          | some i =>
            rw [hidx]
            by_cases hlt : i < specSweetsIndex <;> simp [Bucket.metafieldKey, hlt]
          | none => simp [Bucket.metafieldKey]
  refine ⟨hmain, fun s => ?_, by decide, hidx, by decide, by decide, by decide,
    by decide, by decide⟩
  rw [hmain s]
  cases specBucketFor s with
  | primary => exact Or.inl rfl
  | secondary => exact Or.inr rfl

/-! ## Claim C5 (corrected): choice filtering and the 422 retry -/

/-- C5 (amended): for a list-typed metafield in namespace `custom` with key
`subcategory` or `subcategory_*`, the value array is filtered before the
first send to the values in that key's allowed-choice set whenever that set
is non-empty (an empty allowed set, e.g. for `subcategory_3`, leaves the
value unfiltered), and an array emptied by the filter causes the attribute
to be skipped entirely; if the platform still rejects the write with a 422
not-in-provided-choices error, the choice list parsed out of the error
message re-filters the array (trimmed, case-insensitive matching that
substitutes the platform's canonical strings) and the write is retried
exactly once, the attribute being recorded as failed when the retry fails or
when no value survives the re-filter. -/
theorem subcategory_filter_and_retry :
    (∀ (m : MFData) (s : String) (parsed : List String),
      subcatFamilyKey m.ns m.key = true →
      strStartsWith m.mfType "list." = true →
      normalizeMetafieldValue m.mfType m.value = PyVal.str s →
      parseStringArray s = some parsed →
      ((get_metafield_choices m.key ≠ [] →
        ((parsed.filter
            (fun x => listContainsStr (get_metafield_choices m.key) (pyStrip x)) = [] →
            planValue m = Option.none)
        ∧ (parsed.filter
            (fun x => listContainsStr (get_metafield_choices m.key) (pyStrip x)) ≠ [] →
            planValue m = some (PyVal.str (jsonDumpsList
              (parsed.filter
                (fun x => listContainsStr (get_metafield_choices m.key) (pyStrip x))))))))
      ∧ (get_metafield_choices m.key = [] → planValue m = some (PyVal.str s))))
    ∧ (∀ (existing : List ((String × String) × Nat)) (m : MFData)
        (sv errStr : String) (parsed allowed : List String)
        (resp1 resp2 : MFResponse),
        planValue m = some (PyVal.str sv) →
        parseStringArray sv = some parsed →
        retryCondition m resp1 = true →
        resp1.errorsValue = some errStr →
        extractChoices errStr = some allowed →
        allowed ≠ [] →
        ((refilterByChoices allowed parsed = [] →
           processMetafield existing m resp1 resp2 =
             MFStep.failed [buildRequest existing m (PyVal.str sv)])
        ∧ (refilterByChoices allowed parsed ≠ [] →
           processMetafield existing m resp1 resp2 =
             (if resp2.status = 200 || resp2.status = 201 then
               MFStep.succeeded [buildRequest existing m (PyVal.str sv),
                 buildRequest existing m
                   (PyVal.str (jsonDumpsList (refilterByChoices allowed parsed)))]
              else
               MFStep.failed [buildRequest existing m (PyVal.str sv),
                 buildRequest existing m
                   (PyVal.str (jsonDumpsList (refilterByChoices allowed parsed)))]))))
    ∧ (∀ (existing : List ((String × String) × Nat)) (m : MFData)
        (resp1 resp2 : MFResponse),
        (processMetafield existing m resp1 resp2).requests.length ≤ 2) := by
  refine ⟨fun m s parsed hfam hty hnorm hparse => ⟨fun hne => ⟨fun hemp => ?_, fun hnemp => ?_⟩,
      fun hemp => ?_⟩,
    fun existing m sv errStr parsed allowed resp1 resp2 hplan hparse hrc herr hch hane =>
      ⟨fun hemp => ?_, fun hnemp => ?_⟩,
    fun existing m resp1 resp2 => ?_⟩
  · simp [planValue, hty, hfam, hnorm, applyChoiceFilter, hparse,
      List.isEmpty_iff, hne, hemp]
  · simp [planValue, hty, hfam, hnorm, applyChoiceFilter, hparse,
      List.isEmpty_iff, hne, hnemp]
  · simp [planValue, hty, hfam, hnorm, applyChoiceFilter, hparse,
      List.isEmpty_iff, hemp]
  · have h422 : resp1.status = 422 := by
      simp [retryCondition, Bool.and_eq_true] at hrc
      exact hrc.1.1.1
    simp [processMetafield, hplan, h422, hrc, extractRetryValue, herr, hch, hparse,
      List.isEmpty_iff, hane, hemp, buildRequest]
  · have h422 : resp1.status = 422 := by
      simp [retryCondition, Bool.and_eq_true] at hrc
      exact hrc.1.1.1
    simp [processMetafield, hplan, h422, hrc, extractRetryValue, herr, hch, hparse,
      List.isEmpty_iff, hane, hnemp, buildRequest]
  · cases h : planValue m with
    | none => simp [processMetafield, h, MFStep.requests]
    | some v =>
      simp only [processMetafield, h]
      split
      · simp [MFStep.requests]
      · split
        · cases hx : extractRetryValue v resp1 with
          | none => simp [hx, MFStep.requests]
          | some v2 =>
            simp only [hx]
            split <;> simp [MFStep.requests]
        · simp [MFStep.requests]

/-- C5 witness: the spec scenario — a subcategory write containing one valid
and one invalid label is filtered to the valid label before the first
send. -/
theorem subcategory_filter_witness :
    planValue
        ⟨"custom", "subcategory", PyVal.str "[\"Bars\", \"Bogus\"]",
          "list.single_line_text_field"⟩ =
      some (PyVal.str (jsonDumpsList
        ((["Bars", "Bogus"] : List String).filter
          (fun x =>
            listContainsStr (get_metafield_choices "subcategory") (pyStrip x))))) :=
  (((subcategory_filter_and_retry.1
      ⟨"custom", "subcategory", PyVal.str "[\"Bars\", \"Bogus\"]",
        "list.single_line_text_field"⟩
      "[\"Bars\", \"Bogus\"]" ["Bars", "Bogus"]
      (by decide) (by decide) (by decide) (by decide)).1 (by decide)).2 (by decide))

/-! ## Claim C6 -/

theorem adLookup_nil {α β : Type} [DecidableEq α] (k : α) :
    adLookup ([] : List (α × β)) k = Option.none := rfl

theorem adLookup_cons {α β : Type} [DecidableEq α] (x : α × β)
    (l : List (α × β)) (k : α) :
    adLookup (x :: l) k = if x.1 = k then some x.2 else adLookup l k := by
  by_cases h : x.1 = k
  · rw [adLookup, List.find?_cons_of_pos _ (by simpa using h), if_pos h]
    rfl
  · rw [adLookup, List.find?_cons_of_neg _ (by simpa using h), if_neg h]
    rfl

theorem adMap_lookup_self {α β : Type} [DecidableEq α]
    (d : List (α × β)) (k : α) (v : β) (hany : d.any (fun p => p.1 = k) = true) :
    adLookup (d.map (fun p => if p.1 = k then (k, v) else p)) k = some v := by
  induction d with
  | nil => cases hany
  | cons p t ih =>
    rw [List.map_cons, adLookup_cons]
    by_cases hp : p.1 = k
    · rw [if_pos hp]
      simp
    · rw [if_neg hp, if_neg hp]
      refine ih ?_
      simpa [List.any_cons, hp] using hany

theorem adAppend_lookup_self {α β : Type} [DecidableEq α]
    (d : List (α × β)) (k : α) (v : β)
    (hany : d.any (fun p => p.1 = k) = false) :
    adLookup (d ++ [(k, v)]) k = some v := by
  induction d with
  | nil =>
    rw [List.nil_append, adLookup_cons, if_pos rfl]
  | cons p t ih =>
    rw [List.cons_append, adLookup_cons]
    have hp : ¬ p.1 = k := by
      intro hp
      simp [List.any_cons, hp] at hany
    rw [if_neg hp]
    refine ih ?_
    simpa [List.any_cons, hp] using hany

theorem adMap_lookup_other {α β : Type} [DecidableEq α]
    (d : List (α × β)) (k k2 : α) (v : β) (h : k2 ≠ k) :
    adLookup (d.map (fun p => if p.1 = k then (k, v) else p)) k2 = adLookup d k2 := by
  induction d with
  | nil => rfl
  | cons p t ih =>
    rw [List.map_cons, adLookup_cons, adLookup_cons]
    by_cases hp : p.1 = k
    · have h1 : ¬ ((if p.1 = k then ((k, v) : α × β) else p).1 = k2) := by
        rw [if_pos hp]
        exact fun he => h he.symm
      have h2 : ¬ p.1 = k2 := by
        rw [hp]
        exact fun he => h he.symm
      rw [if_neg h1, if_neg h2, ih]
    · rw [if_neg hp]
      by_cases h2 : p.1 = k2
      · rw [if_pos h2, if_pos h2]
      · rw [if_neg h2, if_neg h2, ih]

theorem adAppend_lookup_other {α β : Type} [DecidableEq α]
    (d : List (α × β)) (k k2 : α) (v : β) (h : k2 ≠ k) :
    adLookup (d ++ [(k, v)]) k2 = adLookup d k2 := by
  induction d with
  | nil =>
    rw [List.nil_append, adLookup_cons, if_neg (fun he => h he.symm), adLookup_nil]
  | cons p t ih =>
    rw [List.cons_append, adLookup_cons, adLookup_cons, ih]

theorem adLookup_adInsert_self {α β : Type} [DecidableEq α]
    (d : List (α × β)) (k : α) (v : β) :
    adLookup (adInsert d k v) k = some v := by
  rw [adInsert]
  by_cases hany : d.any (fun p => p.1 = k) = true
  · rw [if_pos hany]
    exact adMap_lookup_self d k v hany
  · rw [if_neg hany]
    exact adAppend_lookup_self d k v (Bool.not_eq_true _ ▸ Bool.of_not_eq_true hany)

theorem adLookup_adInsert_other {α β : Type} [DecidableEq α]
    (d : List (α × β)) (k k2 : α) (v : β) (h : k2 ≠ k) :
    adLookup (adInsert d k v) k2 = adLookup d k2 := by
  rw [adInsert]
  by_cases hany : d.any (fun p => p.1 = k) = true
  · rw [if_pos hany]
    exact adMap_lookup_other d k k2 v h
  · rw [if_neg hany]
    exact adAppend_lookup_other d k k2 v h

theorem countKey_eq_zero_iff (l : List RemoteMF) (ns k : String) :
    countKey l ns k = 0 ↔ ∀ mf ∈ l, ¬ (mf.ns = ns ∧ mf.key = k) := by
  rw [countKey, List.length_eq_zero, List.filter_eq_nil_iff]
  constructor
  · intro h mf hmf hc
    exact absurd (by simpa using hc) (by simpa using h mf hmf)
  · intro h mf hmf
    simpa using h mf hmf

theorem fetch_fold_lookup_none (ms : List RemoteMF) (pk : String × String)
    (hms : ∀ mf ∈ ms, ¬ (mf.ns = pk.1 ∧ mf.key = pk.2)) :
    ∀ d : List ((String × String) × Nat), adLookup d pk = Option.none →
      adLookup
        (ms.foldl
          (fun d mf =>
            if mf.ns ≠ "" ∧ mf.key ≠ "" then adInsert d (mf.ns, mf.key) mf.id else d)
          d) pk = Option.none := by
  induction ms with
  | nil => intro d hd; simpa using hd
  | cons mf t ih =>
    intro d hd
    simp only [List.foldl_cons]
    have hmf := hms mf (List.mem_cons_self mf t)
    have hne : pk ≠ (mf.ns, mf.key) := by
      intro he
      exact hmf ⟨by rw [he], by rw [he]⟩
    refine ih (fun x hx => hms x (List.mem_cons_of_mem mf hx)) _ ?_
    by_cases hcond : mf.ns ≠ "" ∧ mf.key ≠ ""
    · rw [if_pos hcond, adLookup_adInsert_other _ _ _ _ hne]
      exact hd
    · rw [if_neg hcond]
      exact hd

theorem countKey_append (l1 l2 : List RemoteMF) (ns k : String) :
    countKey (l1 ++ l2) ns k = countKey l1 ns k + countKey l2 ns k := by
  simp [countKey, List.filter_append]

theorem countKey_map_value (l : List RemoteMF) (id : Nat) (v : PyVal)
    (ns k : String) :
    countKey
      (l.map (fun mf => if mf.id = id then { mf with value := v } else mf)) ns k =
      countKey l ns k := by
  induction l with
  | nil => rfl
  | cons mf t ih =>
    by_cases hid : mf.id = id <;>
      by_cases hk : mf.ns = ns ∧ mf.key = k <;>
        simp [countKey, List.filter_cons, hid, hk] at * <;> omega

/-- C6: `create_metafields` upserts by the composite identity
`(namespace, key)`: the existing attributes are fetched once into an identity
map, an input whose identity is already present is sent as a value-only `PUT`
to the existing remote id — never as a second create — and writing the same
`(namespace, key, value, type)` twice against the remote store leaves exactly
one remote attribute with that identity (the second run issues an update, not
a duplicate create). -/
theorem metafield_upsert_idempotent :
    (∀ (st : ServerState) (m : MFData) (v : PyVal),
      m.ns ≠ "" → m.key ≠ "" → planValue m = some v →
      countKey st.metafields m.ns m.key = 0 →
      (runCreateMetafields st [m]).requests =
          [MFRequest.post m.ns m.key v m.mfType]
      ∧ countKey (runCreateMetafields st [m]).state.metafields m.ns m.key = 1
      ∧ (runCreateMetafields (runCreateMetafields st [m]).state [m]).requests =
          [MFRequest.put st.nextId v]
      ∧ countKey
          (runCreateMetafields
            (runCreateMetafields st [m]).state [m]).state.metafields
          m.ns m.key = 1)
    ∧ (∀ (existing : List ((String × String) × Nat)) (m : MFData) (v : PyVal)
        (id : Nat),
        adLookup existing (m.ns, m.key) = some id →
        buildRequest existing m v = MFRequest.put id v) := by
  refine ⟨fun st m v hns hk hplan hcount => ?_, fun existing m v id h => ?_⟩
  · have hnone : adLookup (fetchExisting st) (m.ns, m.key) = Option.none := by
      refine fetch_fold_lookup_none st.metafields (m.ns, m.key) ?_ [] rfl
      exact (countKey_eq_zero_iff _ _ _).mp hcount
    have hreq1 : buildRequest (fetchExisting st) m v =
        MFRequest.post m.ns m.key v m.mfType := by
      rw [buildRequest, hnone]
    have hrun1 : runCreateMetafields st [m] =
        { state :=
            { metafields :=
                st.metafields ++ [⟨st.nextId, m.ns, m.key, v, m.mfType⟩],
              nextId := st.nextId + 1 },
          requests := [MFRequest.post m.ns m.key v m.mfType],
          successCount := 1, errorCount := 0 } := by
      simp [runCreateMetafields, hplan, hreq1, serverApply]
    have hcount1 : countKey
        (st.metafields ++ [⟨st.nextId, m.ns, m.key, v, m.mfType⟩])
        m.ns m.key = 1 := by
      rw [countKey_append, hcount]
      simp [countKey]
    have hlook2 : adLookup
        (fetchExisting
          { metafields :=
              st.metafields ++ [⟨st.nextId, m.ns, m.key, v, m.mfType⟩],
            nextId := st.nextId + 1 }) (m.ns, m.key) = some st.nextId := by
      have hfetch2 : fetchExisting
          { metafields :=
              st.metafields ++ [⟨st.nextId, m.ns, m.key, v, m.mfType⟩],
            nextId := st.nextId + 1 } =
          adInsert (fetchExisting st) (m.ns, m.key) st.nextId := by
        rw [fetchExisting, List.foldl_append]
        simp [fetchExisting, hns, hk]
      rw [hfetch2, adLookup_adInsert_self]
    have hany2 : ((st.metafields ++
          [(⟨st.nextId, m.ns, m.key, v, m.mfType⟩ : RemoteMF)]).any
        (fun mf => mf.id = st.nextId)) = true := by
      rw [List.any_append]
      simp
    have hex : ∃ x ∈ st.metafields ++
        [(⟨st.nextId, m.ns, m.key, v, m.mfType⟩ : RemoteMF)], x.id = st.nextId :=
      ⟨⟨st.nextId, m.ns, m.key, v, m.mfType⟩,
        List.mem_append_right _ (List.mem_cons_self _ _), rfl⟩
    refine ⟨by rw [hrun1], by rw [hrun1]; exact hcount1, ?_, ?_⟩
    · rw [hrun1]
      simp only [runCreateMetafields, List.foldl_cons, List.foldl_nil, hplan,
        buildRequest, hlook2, serverApply]
      rw [if_pos hany2]
      simp
    · rw [hrun1]
      have hgoal : countKey
          ((st.metafields ++
              [(⟨st.nextId, m.ns, m.key, v, m.mfType⟩ : RemoteMF)]).map
            (fun mf => if mf.id = st.nextId then { mf with value := v } else mf))
          m.ns m.key = 1 := by
        rw [countKey_map_value]
        exact hcount1
      simp only [runCreateMetafields, List.foldl_cons, List.foldl_nil, hplan,
        buildRequest, hlook2, serverApply]
      rw [if_pos hany2]
      simpa using hgoal
  · rw [buildRequest, h]

/-- C6 witness: a fresh identity written twice — the first run creates, the
second updates the same remote id, and one attribute remains. -/
theorem metafield_upsert_idempotent_witness :
    (runCreateMetafields ⟨[], 1⟩
        [⟨"custom", "note", PyVal.str "hi", "single_line_text_field"⟩]).requests =
      [MFRequest.post "custom" "note" (PyVal.str "hi") "single_line_text_field"]
    ∧ countKey
        (runCreateMetafields ⟨[], 1⟩
          [⟨"custom", "note", PyVal.str "hi", "single_line_text_field"⟩]).state.metafields
        "custom" "note" = 1
    ∧ (runCreateMetafields
        (runCreateMetafields ⟨[], 1⟩
          [⟨"custom", "note", PyVal.str "hi", "single_line_text_field"⟩]).state
        [⟨"custom", "note", PyVal.str "hi", "single_line_text_field"⟩]).requests =
      [MFRequest.put 1 (PyVal.str "hi")]
    ∧ countKey
        (runCreateMetafields
          (runCreateMetafields ⟨[], 1⟩
            [⟨"custom", "note", PyVal.str "hi", "single_line_text_field"⟩]).state
          [⟨"custom", "note", PyVal.str "hi", "single_line_text_field"⟩]).state.metafields
        "custom" "note" = 1 :=
  metafield_upsert_idempotent.1 ⟨[], 1⟩
    ⟨"custom", "note", PyVal.str "hi", "single_line_text_field"⟩
    (PyVal.str "hi") (by decide) (by decide) (by decide) (by decide)
